import Mathlib

/-!
Verification development for the factur-x library (`facturx/facturx.py`):
a shallow embedding of the hybrid-document name-tree codec and assembler,
together with proofs about its specified properties.

Modelling conventions:
* Python byte strings are `List Nat`; Python text strings are `String`.
* PyPDF objects (`DictionaryObject`, `ArrayObject`, `TextStringObject`,
  `NameObject`, stream objects, `IndirectObject`) are the inductive `PdfObj`.
  A stream object carries both its dictionary entries and its decoded data
  (`flateEncode`/`getData` are inverse on decoded data, so only the decoded
  data is represented).
* The PDF reader's object store is a total table `Nat → PdfObj`; indirect
  references (`IndirectObject.getObject`) resolve through it.
* External collaborators (lxml parsing, XSD schema execution, `hashlib.md5`,
  `mimetypes.guess_type`, `datetime.strftime`) are passed in as oracle
  functions; the code under verification only branches on their results.
* Python's stable `sorted` is modelled by `List.insertionSort`, which is
  also stable, with the same key comparison (code-point lexicographic
  comparison of the filename strings).
* Python truthiness is modelled explicitly where the code relies on it
  (`None`, `False`, `''`, `b''`, `{}`, `[]` are all falsy).
-/

/-! ## String helpers (Python `str` operations, kernel-reducible) -/

/-- Code-point lexicographic `<=` on char lists: Python's `str` comparison. -/
def lexLe : List Char → List Char → Bool
  | [], _ => true
  | _ :: _, [] => false
  | a :: as, b :: bs =>
    if a.toNat < b.toNat then true
    else if b.toNat < a.toNat then false
    else lexLe as bs

/-- Python `a <= b` on strings. -/
def strLeB (a b : String) : Bool := lexLe a.data b.data

/-- Python `str.lower()` (ASCII range, as used by the library). -/
def lowerStr (s : String) : String := ⟨s.data.map Char.toLower⟩

/-- Python `str.capitalize()`: first char upper-cased, rest lower-cased. -/
def capStr (s : String) : String :=
  match s.data with
  | [] => ⟨[]⟩
  | c :: rest => ⟨Char.toUpper c :: rest.map Char.toLower⟩

/-- Python `str.split(':')` on char lists (always returns a nonempty list). -/
def splitColon : List Char → List (List Char)
  | [] => [[]]
  | c :: rest =>
    if c = ':' then [] :: splitColon rest
    else
      match splitColon rest with
      | s :: ss => (c :: s) :: ss
      | [] => [[c]]

/-- Python `s.replace(' ', '')`. -/
def removeSpaces (s : String) : String := ⟨s.data.filter (fun c => c ≠ ' ')⟩

/-- Python `s.replace(c, d)` for single characters. -/
def replaceChar (c d : Char) (s : String) : String :=
  ⟨s.data.map (fun x => if x = c then d else x)⟩

/-- Python `s.replace('/', '#2f')` (used on mimetypes). -/
def replaceSlash (s : String) : String :=
  ⟨(s.data.map (fun x => if x = '/' then ['#', '2', 'f'] else [x])).flatten⟩

/-- Python truthiness of an optional string (`None` and `''` are falsy). -/
def truthyStr : Option String → Bool
  | none => false
  | some s => !(s.data.isEmpty)

/-- Python truthiness of an optional byte string (`None` and `b''` are falsy). -/
def truthyBytes : Option (List Nat) → Bool
  | none => false
  | some b => !b.isEmpty

/-! ## Module-level constants of `facturx.py` -/

def FACTURX_FILENAME : String := "factur-x.xml"

def ZUGFERD_FILENAMES : List String := ["zugferd-invoice.xml", "ZUGFeRD-invoice.xml"]

def ORDERX_FILENAME : String := "order-x.xml"

def ALL_FILENAMES : List String := [FACTURX_FILENAME] ++ ZUGFERD_FILENAMES ++ [ORDERX_FILENAME]

def FACTURX_LEVEL2xsd : List (String × String) :=
  [("minimum", "facturx-minimum/FACTUR-X_MINIMUM.xsd"),
   ("basicwl", "facturx-basicwl/FACTUR-X_BASIC-WL.xsd"),
   ("basic", "facturx-basic/FACTUR-X_BASIC.xsd"),
   ("en16931", "facturx-en16931/FACTUR-X_EN16931.xsd"),
   ("extended", "facturx-extended/FACTUR-X_EXTENDED.xsd")]

def ORDERX_LEVEL2xsd : List (String × String) :=
  [("basic", "orderx-basic/SCRDMCCBDACIOMessageStructure_100pD20B.xsd"),
   ("comfort", "orderx-comfort/SCRDMCCBDACIOMessageStructure_100pD20B.xsd"),
   ("extended", "orderx-extended/SCRDMCCBDACIOMessageStructure_100pD20B.xsd")]

def FACTURX_LEVEL2xmp : List (String × String) :=
  [("minimum", "MINIMUM"), ("basicwl", "BASIC WL"), ("basic", "BASIC"),
   ("en16931", "EN 16931"), ("extended", "EXTENDED")]

def ORDERX_TYPES : List String := ["order", "order_change", "order_response"]

def ORDERX_code2type : List (String × String) :=
  [("220", "order"), ("230", "order_change"), ("231", "order_response")]

def XML_AFRelationship : List String := ["data", "source", "alternative"]

def ATTACHMENTS_AFRelationship : List String := ["supplement", "unspecified"]

/-- Key set of `FACTURX_LEVEL2xsd`: the Factur-X (invoice dialect) levels. -/
def facturxLevels : List String := FACTURX_LEVEL2xsd.map Prod.fst

/-- Key set of `ORDERX_LEVEL2xsd`: the Order-X (order dialect) levels. -/
def orderxLevels : List String := ORDERX_LEVEL2xsd.map Prod.fst

/-- `dict(FACTURX_LEVEL2xsd)` updated with `ORDERX_LEVEL2xsd`: the key set used
by `get_level` (`possible_values`). `comfort` is added; `basic`/`extended`
already occur. -/
def possibleLevels : List String := facturxLevels ++ orderxLevels

/-! ## DocumentClassifier: `get_level` (facturx.py lines 766-800)

The lxml xpath lookup of
`ExchangedDocumentContext/GuidelineSpecifiedDocumentContextParameter/ID`
(with the ZUGFeRD 1.0 fallback path) is an external-collaborator concern; the
classifier below receives the found identifier text as `Option String`
(`none` models the xpath finding no element, which raises `ValueError`). -/

/-- The body of `get_level` starting from `doc_id` (line 789). Splits the URN
on `:`; takes the last segment; if that is not in `possible_values`
(the union of the Factur-X and Order-X level dictionaries), re-reads
`split[-2]` (an `IndexError` when there is a single segment, which we model
as an error outcome as well); if still unrecognized, raises `ValueError`. -/
def getLevelFromId (docId : String) : Except String String :=
  let segs := splitColon docId.data
  let lvl : String := ⟨segs.getLastD []⟩
  if lvl ∈ possibleLevels then Except.ok lvl
  else if h : 2 ≤ segs.length then
    let lvl2 : String := ⟨segs[segs.length - 2]⟩
    if lvl2 ∈ possibleLevels then Except.ok lvl2
    else Except.error "ValueError: Invalid Factur-X/Order-X URN"
  else Except.error "IndexError: list index out of range"

/-- `get_level`: `none` models the guideline identifier element being absent
from the XML (both xpath expressions empty), which raises `ValueError`. -/
def getLevel (docId : Option String) : Except String String :=
  match docId with
  | none => Except.error "ValueError: This XML is not a Factur-X nor Order-X XML"
  | some s => getLevelFromId s

/-! ## PDF object model -/

/-- PyPDF generic objects, as far as the library inspects them.
`name` holds the exact Python string of the `NameObject` (usually starting
with `/`); `stream` holds the stream's dictionary entries and its decoded
data; `ref` is an `IndirectObject` pointing into the reader/writer object
table; `null` stands for any other object kind. -/
inductive PdfObj where
  | dict : List (String × PdfObj) → PdfObj
  | array : List PdfObj → PdfObj
  | string : String → PdfObj
  | name : String → PdfObj
  | stream : List (String × PdfObj) → List Nat → PdfObj
  | ref : Nat → PdfObj
  | null : PdfObj

/-- The object store: `IndirectObject.getObject` resolution table. -/
def getObj (tbl : Nat → PdfObj) : PdfObj → PdfObj
  | PdfObj.ref n => tbl n
  | o => o

/-- Raw Python `dict.get` on a string-keyed dict (no dereferencing). -/
def dictGet {α : Type} : List (String × α) → String → Option α
  | [], _ => none
  | kv :: rest, k => if kv.1 == k then some kv.2 else dictGet rest k

/-- PyPDF `DictionaryObject.__getitem__`: raw lookup followed by
`.getObject()` (dereferencing indirect objects); `none` is a `KeyError`. -/
def dictItem (tbl : Nat → PdfObj) (kvs : List (String × PdfObj)) (k : String) :
    Option PdfObj :=
  (dictGet kvs k).map (getObj tbl)

/-- Python dict assignment `d[k] = v`: overwrite the (first) existing entry
in place, keeping its position as Python dicts do, else append at the end. -/
def dictSet {α : Type} : List (String × α) → String → α → List (String × α)
  | [], k, v => [(k, v)]
  | kv :: rest, k, v =>
    if kv.1 == k then (kv.1, v) :: rest else kv :: dictSet rest k v

theorem dictGet_dictSet_self {α : Type} (kvs : List (String × α)) (k : String) (v : α) :
    dictGet (dictSet kvs k v) k = some v := by
  induction kvs with
  | nil => simp [dictSet, dictGet]
  | cons kv rest ih =>
    by_cases hk : kv.1 = k
    · simp [dictSet, dictGet, hk]
    · have hbeq : (kv.1 == k) = false := by simp [hk]
      simp [dictSet, dictGet, hbeq, ih]

theorem dictGet_dictSet_ne {α : Type} (kvs : List (String × α)) (k k2 : String) (v : α)
    (hne : k2 ≠ k) : dictGet (dictSet kvs k v) k2 = dictGet kvs k2 := by
  induction kvs with
  | nil =>
    have hbeq : (k == k2) = false := by
      simp only [beq_eq_false_iff_ne, ne_eq]
      exact fun he => hne he.symm
    simp [dictSet, dictGet, hbeq]
  | cons kv rest ih =>
    by_cases hk : kv.1 = k
    · have hbeq : (kv.1 == k2) = false := by
        subst hk
        simp only [beq_eq_false_iff_ne, ne_eq]
        exact fun he => hne he.symm
      have hne2 : ¬(k = k2) := fun he => hne he.symm
      simp [dictSet, dictGet, hk, hbeq, hne2]
    · have hbeq : (kv.1 == k) = false := by simp [hk]
      by_cases hk2 : kv.1 = k2
      · have hne2 : (k2 == k) = false := by simp [hne]
        subst hk2
        simp [dictSet, dictGet, hbeq, hne2]
      · have hbeq2 : (kv.1 == k2) = false := by simp [hk2]
        simp [dictSet, dictGet, hbeq, hbeq2, ih]

/-! ## NameTreeReader: `_get_dict_entry`, `_parse_embeddedfiles_kids_node`,
`_get_embeddedfiles` (facturx.py lines 200-280) -/

/-- `_get_dict_entry` (lines 200-213): raw `dict.get`, returning the entry if
it is a dict, dereferencing it if it is an `IndirectObject` and the target is
a dict; every other case is Python `False`, modelled `none`. The `ValueError`
guard (`node` not a dict) cannot fire: both call sites pass a dict, which the
model's type enforces. -/
def getDictEntry (tbl : Nat → PdfObj) (node : List (String × PdfObj)) (entry : String) :
    Option (List (String × PdfObj)) :=
  match dictGet node entry with
  | some (PdfObj.dict kvs) => some kvs
  | some (PdfObj.ref n) =>
    match tbl n with
    | PdfObj.dict kvs => some kvs
    | _ => none
  | _ => none

mutual

/-- `_parse_embeddedfiles_kids_node` (lines 216-251). The result models the
Python return value (`True`/`False`) together with the final contents of the
caller-shared `res` list (mutated in place in Python); `Except.error` models a
raised `ValueError` (only possible for a level outside {1, 2}).
Note the faithful modelling of line 247: the boolean result of the recursive
call on a grandchild `/Kids` node is discarded. -/
def parseEmbeddedfilesKidsNode (tbl : Nat → PdfObj) (level : Nat) (kidsNode : PdfObj)
    (res : List PdfObj) : Except String (Bool × List PdfObj) :=
  if level = 1 ∨ level = 2 then
    match kidsNode with
    | PdfObj.array kids => parseKidsLoop tbl level kids res
    | _ => Except.ok (false, res)
  else Except.error "ValueError: Level argument should be 1 or 2"
termination_by (2 - level, sizeOf kidsNode, 1)

/-- The `for kid_entry in kids_node` loop of `_parse_embeddedfiles_kids_node`
(lines 225-251): each kid must be an `IndirectObject` resolving to a dict; a
`/Names` entry must be an array and is appended to `res`; a `/Kids` entry
recurses (only at level 1, with the recursive result's boolean discarded);
anything else returns `False` immediately, keeping the `res` mutations made
so far. -/
def parseKidsLoop (tbl : Nat → PdfObj) (level : Nat) (kids : List PdfObj)
    (res : List PdfObj) : Except String (Bool × List PdfObj) :=
  match kids with
  | [] => Except.ok (true, res)
  | kid :: rest =>
    match kid with
    | PdfObj.ref n =>
      match tbl n with
      | PdfObj.dict kvs =>
        match dictGet kvs "/Names" with
        | some namesRaw =>
          match getObj tbl namesRaw with
          | PdfObj.array names => parseKidsLoop tbl level rest (res ++ names)
          | _ => Except.ok (false, res)
        | none =>
          match dictGet kvs "/Kids" with
          | some kidsRaw =>
            if _hlv : level = 1 then
              match parseEmbeddedfilesKidsNode tbl 2 (getObj tbl kidsRaw) res with
              | Except.ok (_, res2) => parseKidsLoop tbl level rest res2
              | Except.error e => Except.error e
            else Except.ok (false, res)
          | none => Except.ok (false, res)
      | _ => Except.ok (false, res)
    | _ => Except.ok (false, res)
termination_by (2 - level, sizeOf kids, 0)

end

/-- `_get_embeddedfiles` (lines 254-280): the embedded-files list (even count
of name/value elements) or the Python `False` outcome (`Except.ok none`);
`Except.error` models a propagated exception (never reachable from here, as
proved below). The `ValueError` guard for a non-dict argument cannot fire:
the only call site passes a truthy `_get_dict_entry` result. -/
def getEmbeddedfiles (tbl : Nat → PdfObj) (node : List (String × PdfObj)) :
    Except String (Option (List PdfObj)) :=
  match dictGet node "/Names" with
  | some namesRaw =>
    match getObj tbl namesRaw with
    | PdfObj.array res =>
      if res.length % 2 ≠ 0 then Except.ok none else Except.ok (some res)
    | _ => Except.ok none
  | none =>
    match dictGet node "/Kids" with
    | some kidsRaw =>
      match parseEmbeddedfilesKidsNode tbl 1 (getObj tbl kidsRaw) [] with
      | Except.error e => Except.error e
      | Except.ok (false, _) => Except.ok none
      | Except.ok (true, res) =>
        if res.length % 2 ≠ 0 then Except.ok none else Except.ok (some res)
    | none => Except.ok none

/-! ## Extraction: `get_xml_from_pdf` (facturx.py lines 293-362) -/

/-- A parsed PDF as handed over by `PdfFileReader`: the object table and the
catalog (`trailer['/Root']`, always a dict in a PDF the reader accepts). -/
structure PdfFile where
  objects : Nat → PdfObj
  root : List (String × PdfObj)

/-- The possible outcomes of `get_xml_from_pdf`: a raised exception, the
`(None, None)` pair, the `(False, False)` pair (initial values returned when
the scan loop finishes without a match), or `(filename, xml_bytes)`. -/
inductive ExtractResult where
  | raised : String → ExtractResult
  | nonePair : ExtractResult
  | falsePair : ExtractResult
  | found : String → List Nat → ExtractResult
deriving DecidableEq

/-- Lines 343-349: flavor passed to `xml_check_xsd`, determined from the
matched filename. -/
def detectedFlavorForFilename (fn : String) : String :=
  if fn = ORDERX_FILENAME then "order-x"
  else if fn = FACTURX_FILENAME then "factur-x"
  else if fn ∈ ZUGFERD_FILENAMES then "zugferd"
  else "autodetect"

/-- The body of the scan loop for a matched filename (lines 335-356):
dereference the filespec, fetch `['/EF']['/F']`, `getData()`, parse the XML
(`parseOk` oracle models `etree.fromstring`), optionally validate against the
XSD (`xsdOk` oracle models `xml_check_xsd`, taking the detected flavor).
`Except.error` models any raised exception (caught by the enclosing `try`). -/
def processPair (tbl : Nat → PdfObj) (parseOk : List Nat → Bool)
    (xsdOk : String → List Nat → Bool) (checkXsd : Bool) (fn : String)
    (fileObj : PdfObj) : Except String (String × List Nat) :=
  match getObj tbl fileObj with
  | PdfObj.dict kvs =>
    match dictItem tbl kvs "/EF" with
    | some (PdfObj.dict efkvs) =>
      match dictItem tbl efkvs "/F" with
      | some (PdfObj.stream _ data) =>
        if parseOk data then
          if checkXsd then
            if xsdOk (detectedFlavorForFilename fn) data then Except.ok (fn, data)
            else Except.error "not valid against the official XML Schema Definition"
          else Except.ok (fn, data)
        else Except.error "The XML syntax is invalid"
      | some _ => Except.error "AttributeError: object has no attribute getData"
      | none => Except.error "KeyError: /F"
    | some _ => Except.error "TypeError: /EF entry is not subscriptable"
    | none => Except.error "KeyError: /EF"
  | _ => Except.error "TypeError: file object is not subscriptable"

/-- The `for (filename, file_obj) in embeddedfiles_by_two` loop (lines
332-356): the first pair whose name is a string in `filenames` is processed
and the loop breaks; `Except.ok none` models loop completion with no match
(`xml_bytes`/`xml_filename` keep their initial `False`). -/
def scanPairs (tbl : Nat → PdfObj) (parseOk : List Nat → Bool)
    (xsdOk : String → List Nat → Bool) (checkXsd : Bool) (fns : List String) :
    List (PdfObj × PdfObj) → Except String (Option (String × List Nat))
  | [] => Except.ok none
  | (fnObj, fileObj) :: rest =>
    match fnObj with
    | PdfObj.string s =>
      if s ∈ fns then (processPair tbl parseOk xsdOk checkXsd s fileObj).map some
      else scanPairs tbl parseOk xsdOk checkXsd fns rest
    | _ => scanPairs tbl parseOk xsdOk checkXsd fns rest

/-- `embeddedfiles_by_two = list(zip(embeddedfiles, embeddedfiles[1:]))[::2]`
(line 329): consecutive non-overlapping pairs, dropping a dangling element. -/
def byTwo {α : Type} : List α → List (α × α)
  | a :: b :: rest => (a, b) :: byTwo rest
  | _ => []

/-- `get_xml_from_pdf` (lines 293-362). `pdfFile = none` models a falsy
`pdf_file` argument (raises `ValueError`); the `check_xsd`/`filenames`
type guards cannot fire in the typed model. An empty `filenames` list is
replaced by `ALL_FILENAMES`. The whole scan loop runs under `try`: any
exception inside it yields `(None, None)`. -/
def getXmlFromPdf (parseOk : List Nat → Bool) (xsdOk : String → List Nat → Bool)
    (checkXsd : Bool) (filenames : List String) (pdfFile : Option PdfFile) :
    ExtractResult :=
  match pdfFile with
  | none => ExtractResult.raised "ValueError: Missing pdf_invoice argument"
  | some pdf =>
    let fns := if filenames.isEmpty then ALL_FILENAMES else filenames
    match getDictEntry pdf.objects pdf.root "/Names" with
    | none => ExtractResult.nonePair
    | some catalogName =>
      if catalogName.isEmpty then ExtractResult.nonePair
      else
        match getDictEntry pdf.objects catalogName "/EmbeddedFiles" with
        | none => ExtractResult.nonePair
        | some efNode =>
          if efNode.isEmpty then ExtractResult.nonePair
          else
            match getEmbeddedfiles pdf.objects efNode with
            | Except.error e => ExtractResult.raised e
            | Except.ok none => ExtractResult.nonePair
            | Except.ok (some embeddedfiles) =>
              if embeddedfiles.isEmpty then ExtractResult.nonePair
              else
                match scanPairs pdf.objects parseOk xsdOk checkXsd fns
                    (byTwo embeddedfiles) with
                | Except.error _ => ExtractResult.nonePair
                | Except.ok none => ExtractResult.falsePair
                | Except.ok (some (fn, xml)) => ExtractResult.found fn xml

/-! ## AttachmentAssembler: the embed path
(`_filespec_additional_attachments`, facturx.py lines 512-557, and
`_facturx_update_metadata_add_attachment`, lines 560-680) -/

/-- One value of the caller's `attachments` dict (`file_dict`). `datetime`
objects are opaque ticks (`Nat`); a field being `none` models the key being
absent. -/
structure AttachDict where
  filepath : Option String := none
  filedata : Option (List Nat) := none
  description : Option String := none
  modification_datetime : Option Nat := none
  creation_datetime : Option Nat := none
  afrelationship : Option String := none

/-- The external collaborators the embed path calls out to. `md5hex` is
`hashlib.md5(...).hexdigest()`; `guessMime` is `mimetypes.guess_type(fn)[0]`;
`nowPdf` is `_get_pdf_timestamp()` at call time; `fmtPdf` is
`_get_pdf_timestamp(dt)`; `xmpBytes` is the `_prepare_pdf_metadata_xml`
template rendering (its output bytes are not inspected by any claim);
`libVersion` is `__version__`. -/
structure Oracles where
  md5hex : List Nat → String
  guessMime : String → Option String
  nowPdf : String
  fmtPdf : Nat → String
  xmpBytes : String → String → Option String → List (String × String) → List Nat
  libVersion : String

/-- `PdfFileWriter` state: `_objects`, `_root_object` and the Info dict. -/
structure WriterPdf where
  objs : List PdfObj
  root : List (String × PdfObj)
  info : List (String × PdfObj)

/-- `PdfFileWriter._addObject`: append and return the `IndirectObject`. -/
def addObject (w : WriterPdf) (o : PdfObj) : PdfObj × WriterPdf :=
  (PdfObj.ref w.objs.length, { w with objs := w.objs ++ [o] })

/-- `pdf_metadata.get(key, '')`. -/
def metaGet (pdfMetadata : List (String × String)) (k : String) : String :=
  (dictGet pdfMetadata k).getD ""

/-- `_prepare_pdf_metadata_txt` (lines 380-392). -/
def preparePdfMetadataTxt (orc : Oracles) (pdfMetadata : List (String × String)) :
    List (String × PdfObj) :=
  [("/Author", PdfObj.string (metaGet pdfMetadata "author")),
   ("/CreationDate", PdfObj.string orc.nowPdf),
   ("/Creator",
    PdfObj.string ("factur-x Python lib v" ++ orc.libVersion ++ " by Alexis de Lattre")),
   ("/Keywords", PdfObj.string (metaGet pdfMetadata "keywords")),
   ("/ModDate", PdfObj.string orc.nowPdf),
   ("/Subject", PdfObj.string (metaGet pdfMetadata "subject")),
   ("/Title", PdfObj.string (metaGet pdfMetadata "title"))]

/-- Lines 600-605: the canonical filename of the primary payload for a
flavor (`order-x.xml` for the order dialect, `factur-x.xml` otherwise). -/
def canonicalFilename (flavor : String) : String :=
  if flavor = "order-x" then ORDERX_FILENAME else FACTURX_FILENAME

/-- Lines 600-605: the `/Desc` text of the primary payload's filespec. -/
def canonicalDesc (flavor : String) : String :=
  if flavor = "order-x" then "Order-X XML file" else "Factur-X XML file"

/-- The primary payload's `/Params` dict (lines 579-583). -/
def primaryParamsDict (orc : Oracles) (xmlBytes : List Nat) : List (String × PdfObj) :=
  [("/CheckSum", PdfObj.string (orc.md5hex xmlBytes)),
   ("/ModDate", PdfObj.string orc.nowPdf),
   ("/Size", PdfObj.name (toString xmlBytes.length))]

/-- The primary payload's embedded-file stream (lines 584-592). -/
def primaryFileEntry (orc : Oracles) (xmlBytes : List Nat) : PdfObj :=
  PdfObj.stream
    [("/Type", PdfObj.name "/EmbeddedFile"),
     ("/Params", PdfObj.dict (primaryParamsDict orc xmlBytes)),
     ("/Subtype", PdfObj.name "/text#2Fxml")]
    xmlBytes

/-- The primary payload's `Filespec` dict (lines 594-615):
`/EF` holds `/F` and `/UF` pointing at the stream object. -/
def primaryFilespec (fname desc afrel : String) (fileEntryRef : PdfObj) : PdfObj :=
  PdfObj.dict
    [("/AFRelationship", PdfObj.name ("/" ++ capStr afrel)),
     ("/Desc", PdfObj.string desc),
     ("/Type", PdfObj.name "/Filespec"),
     ("/F", PdfObj.string fname),
     ("/EF", PdfObj.dict [("/F", fileEntryRef), ("/UF", fileEntryRef)]),
     ("/UF", PdfObj.string fname)]

/-- A supplementary attachment's `/Params` dict (lines 515-527): checksum and
size, then the optional modification/creation dates. -/
def attachParamsDict (orc : Oracles) (a : AttachDict) (data : List Nat) :
    List (String × PdfObj) :=
  [("/CheckSum", PdfObj.string (orc.md5hex data)),
   ("/Size", PdfObj.name (toString data.length))]
  ++ (match a.modification_datetime with
      | some dt => [("/ModDate", PdfObj.string (orc.fmtPdf dt))]
      | none => [])
  ++ (match a.creation_datetime with
      | some dt => [("/CreationDate", PdfObj.string (orc.fmtPdf dt))]
      | none => [])

/-- Lines 531-534: mimetype sniffing with octet-stream fallback (an empty or
missing guess is falsy). -/
def attachMimetype (orc : Oracles) (fn : String) : String :=
  match orc.guessMime fn with
  | some m => if m.data.isEmpty then "application/octet-stream" else m
  | none => "application/octet-stream"

/-- `'/' + file_mimetype.replace('/', '#2f')` (line 534). -/
def attachSubtype (orc : Oracles) (fn : String) : String :=
  "/" ++ replaceSlash (attachMimetype orc fn)

/-- A supplementary attachment's embedded-file stream (lines 528-539). -/
def attachFileEntry (orc : Oracles) (a : AttachDict) (fn : String) (data : List Nat) :
    PdfObj :=
  PdfObj.stream
    [("/Type", PdfObj.name "/EmbeddedFile"),
     ("/Params", PdfObj.dict (attachParamsDict orc a data)),
     ("/Subtype", PdfObj.name (attachSubtype orc fn))]
    data

/-- Lines 545-547: the attachment's AFRelationship, forced to `unspecified`
when missing or invalid. -/
def attachAfrel (a : AttachDict) : String :=
  match a.afrelationship with
  | some r => if ATTACHMENTS_AFRelationship.contains r then r else "unspecified"
  | none => "unspecified"

/-- A supplementary attachment's `Filespec` dict (lines 541-555):
`/EF` holds only `/F`. -/
def attachFilespec (a : AttachDict) (fn : String)
    (fileEntryRef : PdfObj) : PdfObj :=
  PdfObj.dict
    [("/AFRelationship", PdfObj.name ("/" ++ capStr (attachAfrel a))),
     ("/Desc", PdfObj.string (a.description.getD "")),
     ("/Type", PdfObj.name "/Filespec"),
     ("/F", PdfObj.string fn),
     ("/EF", PdfObj.dict [("/F", fileEntryRef)]),
     ("/UF", PdfObj.string fn)]

/-- `_filespec_additional_attachments` (lines 512-557): add the stream and
filespec objects and register the filespec under the filename in
`name_arrayobj_cdict`. A missing `filedata` key is a raised `KeyError`. -/
def filespecAdditionalAttachments (orc : Oracles) (w : WriterPdf)
    (cdict : List (String × PdfObj)) (a : AttachDict) (fn : String) :
    Except String (WriterPdf × List (String × PdfObj)) :=
  match a.filedata with
  | none => Except.error "KeyError: filedata"
  | some data =>
    let r1 := addObject w (attachFileEntry orc a fn data)
    let r2 := addObject r1.2 (attachFilespec a fn r1.1)
    Except.ok (r2.2, dictSet cdict fn r2.1)

/-- The `for attach_filename, attach_dict in additional_attachments.items()`
loop (lines 618-620). -/
def addAttachments (orc : Oracles) : WriterPdf → List (String × PdfObj) →
    List (String × AttachDict) → Except String (WriterPdf × List (String × PdfObj))
  | w, cdict, [] => Except.ok (w, cdict)
  | w, cdict, (fn, a) :: rest =>
    match filespecAdditionalAttachments orc w cdict a fn with
    | Except.error e => Except.error e
    | Except.ok (w2, cd2) => addAttachments orc w2 cd2 rest

/-- The output-intents loop (lines 640-649). -/
def addOutputIntents : WriterPdf → List (List (String × PdfObj) × PdfObj) →
    WriterPdf × List PdfObj
  | w, [] => (w, [])
  | w, (intentD, destD) :: rest =>
    let r1 := addObject w destD
    let r2 := addObject r1.2 (PdfObj.dict (dictSet intentD "/DestOutputProfile" r1.1))
    let r3 := addOutputIntents r2.2 rest
    (r3.1, r2.1 :: r3.2)

/-- The sort key relation of line 622-623:
`sorted(name_arrayobj_cdict.items(), key=lambda x: x[0])` compares the
encoded filename strings (Python `str` code-point order). -/
def pairNameLe (a b : String × PdfObj) : Prop := strLeB a.1 b.1 = true

instance : DecidableRel pairNameLe := fun a b => by
  unfold pairNameLe
  infer_instance

/-- The root-object updates of lines 662-677: `/AF`, `/Metadata`, `/Names`,
`/PageMode` always; `/Lang` when a truthy `lang` was given; `/OutputIntents`
when the source document had output intents. -/
def rootUpdates (r : List (String × PdfObj)) (afRef metaRef : PdfObj)
    (efDict : List (String × PdfObj)) (lang : Option String)
    (resOutputIntents : List PdfObj) : List (String × PdfObj) :=
  let root1 :=
    dictSet (dictSet (dictSet (dictSet r "/AF" afRef) "/Metadata" metaRef)
      "/Names" (PdfObj.dict efDict)) "/PageMode" (PdfObj.name "/UseAttachments")
  let root2 :=
    match lang with
    | some l =>
      if l.data.isEmpty then root1
      else dictSet root1 "/Lang" (PdfObj.string (replaceChar '_' '-' l))
    | none => root1
  if resOutputIntents.isEmpty then root2
  else dictSet root2 "/OutputIntents" (PdfObj.array resOutputIntents)

/-- What `_facturx_update_metadata_add_attachment` produces: the final writer
state, together with the function's own `name_arrayobj_content_sort` (as
(filename, filespec-reference) pairs) and `af_list` locals. -/
structure EmbedOut where
  pdf : WriterPdf
  sortedNames : List (String × PdfObj)
  afList : List PdfObj

/-- `_facturx_update_metadata_add_attachment` (lines 560-680).
`Except.error` models the two `ValueError` guards and the `KeyError` from a
supplementary attachment without `filedata`. Python's stable `sorted` is
modelled by the (stable) `List.insertionSort`. -/
def facturxUpdateMetadataAddAttachment (orc : Oracles) (w0 : WriterPdf)
    (xmlBytes : List Nat) (pdfMetadata : List (String × String))
    (flavor level : String) (orderxType : Option String) (lang : Option String)
    (outputIntents : List (List (String × PdfObj) × PdfObj))
    (additionalAttachments : List (String × AttachDict)) (afrel : String) :
    Except String EmbedOut :=
  if flavor == "order-x" &&
      !(match orderxType with
        | some t => ORDERX_TYPES.contains t
        | none => false) then
    Except.error "ValueError: Wrong value for orderx_type"
  else if !(XML_AFRelationship.contains afrel) then
    Except.error "ValueError: Wrong value for afrelationship"
  else
    let r1 := addObject w0 (primaryFileEntry orc xmlBytes)
    let xmlFilename := canonicalFilename flavor
    let r2 := addObject r1.2 (primaryFilespec xmlFilename (canonicalDesc flavor) afrel r1.1)
    match addAttachments orc r2.2 [(xmlFilename, r2.1)] additionalAttachments with
    | Except.error e => Except.error e
    | Except.ok (w3, cdict) =>
      let sortedNames := List.insertionSort pairNameLe cdict
      let namesFinal :=
        (sortedNames.map (fun kv => [PdfObj.string kv.1, kv.2])).flatten
      let afList := sortedNames.map Prod.snd
      let embeddedFilesDict : List (String × PdfObj) :=
        [("/EmbeddedFiles", PdfObj.dict [("/Names", PdfObj.array namesFinal)])]
      let r4 := addOutputIntents w3 outputIntents
      let r5 := addObject r4.1
        (PdfObj.stream [("/Subtype", PdfObj.name "/XML"), ("/Type", PdfObj.name "/Metadata")]
          (orc.xmpBytes flavor level orderxType pdfMetadata))
      let r6 := addObject r5.2 (PdfObj.array afList)
      let root3 := rootUpdates r6.2.root r6.1 r5.1 embeddedFilesDict lang r4.2
      let info2 := (preparePdfMetadataTxt orc pdfMetadata).foldl
        (fun acc kv => dictSet acc kv.1 kv.2) r6.2.info
      Except.ok
        { pdf := { objs := r6.2.objs, root := root3, info := info2 },
          sortedNames := sortedNames,
          afList := afList }

/-! ## HybridDocumentBuilder: `generate_from_file` argument pipeline
(facturx.py lines 1095-1197) -/

/-- Lines 1096-1101: lower-case the flavor and apply `flavor_fix_mapping`. -/
def fixFlavor (flavorIn : String) : String :=
  let f := lowerStr flavorIn
  if f = "orderx" then "order-x"
  else if f = "facturx" then "factur-x"
  else f

/-- Line 1102: `level.lower().replace(' ', '')`. -/
def normalizeLevel (levelIn : String) : String := removeSpaces (lowerStr levelIn)

/-- Lines 1103-1104: orderx_type normalization (kept as-is when falsy). -/
def normalizeOrderxType (t : Option String) : Option String :=
  if truthyStr t then
    some (replaceChar ' ' '_' (replaceChar '-' '_' (lowerStr (t.getD ""))))
  else t

/-- Lines 1105-1113: the afrelationship normalization. A falsy value (`None`
or `''`) becomes `data` silently; a truthy value is lower-cased and, when not
one of `XML_AFRelationship`, forced to `data` with a warning. -/
def normalizeAfrel (afrelIn : Option String) : String × List String :=
  let a := if truthyStr afrelIn then lowerStr (afrelIn.getD "") else "data"
  if XML_AFRelationship.contains a then (a, [])
  else ("data", ["Wrong value for afrelationship. Forcing it to data."])

/-- Lines 1145-1150: drop caller-supplied attachments with a reserved
canonical filename, emitting one warning per dropped attachment. -/
def popReserved : List (String × AttachDict) →
    List (String × AttachDict) × List String
  | [] => ([], [])
  | (fn, a) :: rest =>
    let r := popReserved rest
    if ALL_FILENAMES.contains fn then (r.1, fn :: r.2)
    else ((fn, a) :: r.1, r.2)

/-- Lines 1152-1165: read `filedata` from `filepath` when absent (also
deriving `modification_datetime` from the file's mtime when absent).
`readFile` models `open(filepath, 'rb').read()`; `mtime` models
`datetime.fromtimestamp(os.path.getmtime(filepath))`. -/
def attachFilepathStep (readFile : String → List Nat) (mtime : String → Nat)
    (a : AttachDict) : AttachDict :=
  if truthyStr a.filepath && !(truthyBytes a.filedata) then
    let fd := { a with filedata := some (readFile (a.filepath.getD "")) }
    if fd.modification_datetime.isSome then fd
    else { fd with modification_datetime := some (mtime (a.filepath.getD "")) }
  else a

/-- Lines 1166-1170: `afrelationship` lower-cased when truthy, then forced to
`unspecified` when missing or invalid. -/
def attachAfrelStep (a : AttachDict) : AttachDict :=
  let a2 :=
    if truthyStr a.afrelationship then
      { a with afrelationship := some (lowerStr (a.afrelationship.getD "")) }
    else a
  if (match a2.afrelationship with
      | some r => ATTACHMENTS_AFRelationship.contains r
      | none => false) then a2
  else { a2 with afrelationship := some "unspecified" }

def transformAttachValue (readFile : String → List Nat) (mtime : String → Nat)
    (a : AttachDict) : AttachDict :=
  if truthyStr a.filepath && !(truthyBytes a.filedata) then
    attachAfrelStep (attachFilepathStep readFile mtime a)
  else a

/-- Lines 1140-1170 as a whole: the net effect of `generate_from_file` on the
caller's `attachments` dict (which the function mutates in place): reserved
names popped with warnings, then every surviving value transformed. -/
def generateAttachmentsTransform (readFile : String → List Nat)
    (mtime : String → Nat) (atts : List (String × AttachDict)) :
    List (String × AttachDict) × List String :=
  let r := popReserved atts
  (r.1.map (fun kv => (kv.1, transformAttachValue readFile mtime kv.2)), r.2)

/-- The flavor/level/afrelationship/orderx_type resolution of
`generate_from_file` (lines 1096-1113 and 1171-1194). The classification
calls on the XML (`get_flavor`, `get_level`, `get_orderx_type`) are supplied
as their result values; their raised exceptions propagate. -/
structure ResolvedParams where
  flavor : String
  level : String
  orderxType : Option String
  afrel : String
  warnings : List String

def resolveParams (getFlavorRes getLevelRes getOrderxTypeRes : Except String String)
    (flavorIn levelIn : String) (orderxTypeIn afrelIn : Option String) :
    Except String ResolvedParams :=
  let flavor0 := fixFlavor flavorIn
  let level0 := normalizeLevel levelIn
  let otype0 := normalizeOrderxType orderxTypeIn
  let na := normalizeAfrel afrelIn
  match (if flavor0 == "factur-x" || flavor0 == "order-x" then Except.ok flavor0
         else getFlavorRes) with
  | Except.error e => Except.error e
  | Except.ok flavor1 =>
    match (if (flavor1 == "factur-x" && !(facturxLevels.contains level0)) ||
              (flavor1 == "order-x" && !(orderxLevels.contains level0)) then
             getLevelRes
           else Except.ok level0) with
    | Except.error e => Except.error e
    | Except.ok level1 =>
      let afrelOv :=
        if flavor1 == "factur-x" && (level1 == "minimum" || level1 == "basicwl") &&
            (na.1 == "source" || na.1 == "alternative") then
          ("data",
           na.2 ++ ["afrelationship switched to data: it must be data for this Factur-X profile"])
        else na
      match (if flavor1 == "order-x" &&
                !(match otype0 with
                  | some t => ORDERX_TYPES.contains t
                  | none => false) then
               getOrderxTypeRes.map some
             else Except.ok otype0) with
      | Except.error e => Except.error e
      | Except.ok otype1 =>
        Except.ok
          { flavor := flavor1, level := level1, orderxType := otype1,
            afrel := afrelOv.1, warnings := afrelOv.2 }

/-! ## Helper lemmas: the comparator -/

theorem lexLe_total (as bs : List Char) : lexLe as bs = true ∨ lexLe bs as = true := by
  induction as generalizing bs with
  | nil => left; rfl
  | cons a as ih =>
    cases bs with
    | nil => right; rfl
    | cons b bs =>
      by_cases h1 : a.toNat < b.toNat
      · left
        simp [lexLe, h1]
      · by_cases h2 : b.toNat < a.toNat
        · right
          simp [lexLe, h2]
        · rcases ih bs with h | h
          · left
            simp [lexLe, h1, h2, h]
          · right
            simp [lexLe, h1, h2, h]

theorem lexLe_trans (as bs cs : List Char) (h1 : lexLe as bs = true)
    (h2 : lexLe bs cs = true) : lexLe as cs = true := by
  induction as generalizing bs cs with
  | nil => rfl
  | cons a as ih =>
    cases bs with
    | nil => simp [lexLe] at h1
    | cons b bs =>
      cases cs with
      | nil => simp [lexLe] at h2
      | cons c cs =>
        simp only [lexLe] at h1 h2 ⊢
        by_cases hab : a.toNat < b.toNat
        · by_cases hbc : b.toNat < c.toNat
          · have : a.toNat < c.toNat := by omega
            simp [this]
          · by_cases hcb : c.toNat < b.toNat
            · simp [hbc, hcb] at h2
            · have : a.toNat < c.toNat := by omega
              simp [this]
        · by_cases hba : b.toNat < a.toNat
          · simp [hab, hba] at h1
          · by_cases hbc : b.toNat < c.toNat
            · have : a.toNat < c.toNat := by omega
              simp [this]
            · by_cases hcb : c.toNat < b.toNat
              · simp [hbc, hcb] at h2
              · have hac : ¬(a.toNat < c.toNat) := by omega
                have hca : ¬(c.toNat < a.toNat) := by omega
                simp only [hab, hba, if_false] at h1
                simp only [hbc, hcb, if_false] at h2
                simp [hac, hca, ih bs cs h1 h2]

theorem lexLe_antisymm (as bs : List Char) (h1 : lexLe as bs = true)
    (h2 : lexLe bs as = true) : as = bs := by
  induction as generalizing bs with
  | nil =>
    cases bs with
    | nil => rfl
    | cons b bs => simp [lexLe] at h2
  | cons a as ih =>
    cases bs with
    | nil => simp [lexLe] at h1
    | cons b bs =>
      simp only [lexLe] at h1 h2
      by_cases hab : a.toNat < b.toNat
      · have hba : ¬(b.toNat < a.toNat) := by omega
        simp [hab, hba] at h2
      · by_cases hba : b.toNat < a.toNat
        · simp [hab, hba] at h1
        · have hv : a.toNat = b.toNat := by omega
          have hchar : a = b := Char.ext (UInt32.ext hv)
          simp only [hab, hba, if_false] at h1 h2
          rw [hchar, ih bs h1 h2]

theorem strLeB_antisymm (a b : String) (h1 : strLeB a b = true)
    (h2 : strLeB b a = true) : a = b := by
  cases a with
  | mk da =>
    cases b with
    | mk db =>
      have : da = db := lexLe_antisymm da db h1 h2
      rw [this]

instance : IsTotal (String × PdfObj) pairNameLe :=
  ⟨fun a b => by
    unfold pairNameLe strLeB
    exact lexLe_total a.1.data b.1.data⟩

instance : IsTrans (String × PdfObj) pairNameLe :=
  ⟨fun a b c h1 h2 => by
    unfold pairNameLe strLeB at h1 h2 ⊢
    exact lexLe_trans _ _ _ h1 h2⟩

/-- Two lists of keyed pairs that are permutations of each other, both sorted
by key, with no duplicate keys, are equal: the "deterministic ordering"
uniqueness core. -/
theorem sorted_keyed_unique {l1 l2 : List (String × PdfObj)} (hperm : l1.Perm l2)
    (hnd : (l1.map Prod.fst).Nodup)
    (hs1 : List.Pairwise pairNameLe l1) (hs2 : List.Pairwise pairNameLe l2) :
    l1 = l2 := by
  have hnd1 : List.Pairwise (fun a b : String × PdfObj => a.1 ≠ b.1) l1 :=
    List.pairwise_map.mp hnd
  have hnd2 : List.Pairwise (fun a b : String × PdfObj => a.1 ≠ b.1) l2 :=
    (hperm.pairwise_iff (fun {a b} h he => h he.symm)).mp hnd1
  haveI : IsAntisymm (String × PdfObj)
      (fun a b => pairNameLe a b ∧ a.1 ≠ b.1) :=
    ⟨fun a b h1 h2 => absurd (strLeB_antisymm a.1 b.1 h1.1 h2.1) h1.2⟩
  exact List.eq_of_perm_of_sorted hperm (hs1.and hnd1) (hs2.and hnd2)

/-! ## Helper lemmas: dictionaries and list positions -/

theorem dictGet_mem {α : Type} {l : List (String × α)} {k : String} {v : α}
    (h : dictGet l k = some v) : (k, v) ∈ l := by
  induction l with
  | nil => simp [dictGet] at h
  | cons kv rest ih =>
    by_cases hk : kv.1 = k
    · simp only [dictGet, hk, beq_self_eq_true, if_true, Option.some.injEq] at h
      subst hk
      subst h
      exact List.mem_cons_self kv rest
    · have hbeq : (kv.1 == k) = false := by simp [hk]
      simp only [dictGet, hbeq, Bool.false_eq_true, if_false] at h
      exact List.mem_cons_of_mem kv (ih h)

theorem dictSet_mem {α : Type} {l : List (String × α)} {k : String} {v : α}
    (p : String × α) (h : p ∈ dictSet l k v) : p ∈ l ∨ p.1 = k := by
  induction l with
  | nil =>
    simp only [dictSet, List.mem_singleton] at h
    right
    rw [h]
  | cons kv rest ih =>
    by_cases hk : kv.1 = k
    · simp only [dictSet, hk, beq_self_eq_true, if_true] at h
      rcases List.mem_cons.mp h with hp | hp
      · right
        rw [hp, ← hk]
      · left
        exact List.mem_cons_of_mem kv hp
    · have hbeq : (kv.1 == k) = false := by simp [hk]
      simp only [dictSet, hbeq, Bool.false_eq_true, if_false] at h
      rcases List.mem_cons.mp h with hp | hp
      · left
        rw [hp]
        exact List.mem_cons_self kv rest
      · rcases ih hp with h2 | h2
        · left
          exact List.mem_cons_of_mem kv h2
        · right
          exact h2

theorem dictSet_of_fresh {α : Type} {l : List (String × α)} {k : String} (v : α)
    (h : dictGet l k = none) : dictSet l k v = l ++ [(k, v)] := by
  induction l with
  | nil => rfl
  | cons kv rest ih =>
    by_cases hk : kv.1 = k
    · simp [dictGet, hk] at h
    · have hbeq : (kv.1 == k) = false := by simp [hk]
      simp only [dictGet, hbeq, Bool.false_eq_true, if_false] at h
      simp [dictSet, hbeq, ih h]

theorem getAt_append_len {α : Type} (l1 : List α) (a : α) (l2 : List α) :
    (l1 ++ a :: l2)[l1.length]? = some a := by
  rw [List.getElem?_append_right (Nat.le_refl _)]
  simp

theorem getAt_append_len_succ {α : Type} (l1 : List α) (a b : α) (l2 : List α) :
    (l1 ++ a :: b :: l2)[l1.length + 1]? = some b := by
  rw [List.getElem?_append_right (by omega)]
  have : l1.length + 1 - l1.length = 1 := by omega
  rw [this]
  simp

/-! ## Helper lemmas: the name array pairing -/

theorem byTwo_flatten_pairs (l : List (String × PdfObj)) :
    byTwo ((l.map (fun kv => [PdfObj.string kv.1, kv.2])).flatten) =
      l.map (fun kv => (PdfObj.string kv.1, kv.2)) := by
  induction l with
  | nil => rfl
  | cons kv rest ih =>
    simp only [List.map_cons, List.flatten_cons, List.cons_append, List.nil_append]
    rw [byTwo, ih]

theorem flatten_pairs_length (l : List (String × PdfObj)) :
    ((l.map (fun kv => [PdfObj.string kv.1, kv.2])).flatten).length = 2 * l.length := by
  induction l with
  | nil => rfl
  | cons kv rest ih =>
    simp only [List.map_cons, List.flatten_cons, List.length_append, ih, List.length_cons]
    simp
    omega

/-! ## Helper lemmas: the attachment-building fold -/

theorem addOutputIntents_props (l : List (List (String × PdfObj) × PdfObj)) :
    ∀ w : WriterPdf,
    (∃ ext, (addOutputIntents w l).1.objs = w.objs ++ ext) ∧
    (addOutputIntents w l).1.root = w.root ∧ (addOutputIntents w l).1.info = w.info := by
  induction l with
  | nil =>
    intro w
    exact ⟨⟨[], by simp [addOutputIntents]⟩, rfl, rfl⟩
  | cons hd rest ih =>
    intro w
    obtain ⟨⟨ext, hext⟩, hroot, hinfo⟩ :=
      ih { w with objs := w.objs ++ [hd.2] ++ [PdfObj.dict (dictSet hd.1 "/DestOutputProfile" (PdfObj.ref w.objs.length))] }
    refine ⟨⟨[hd.2] ++ [PdfObj.dict (dictSet hd.1 "/DestOutputProfile" (PdfObj.ref w.objs.length))] ++ ext, ?_⟩, ?_, ?_⟩
    · cases hd with
      | mk intentD destD =>
        simp only [addOutputIntents, addObject] at hext ⊢
        rw [hext]
        simp [List.append_assoc]
    · cases hd with
      | mk intentD destD =>
        simp only [addOutputIntents, addObject] at hroot ⊢
        exact hroot
    · cases hd with
      | mk intentD destD =>
        simp only [addOutputIntents, addObject] at hinfo ⊢
        exact hinfo

theorem addAttachments_props (orc : Oracles) :
    ∀ (atts : List (String × AttachDict)) (w : WriterPdf)
      (cd : List (String × PdfObj)) (w' : WriterPdf) (cd' : List (String × PdfObj)),
    addAttachments orc w cd atts = Except.ok (w', cd') →
    (∃ ext, w'.objs = w.objs ++ ext) ∧ w'.root = w.root ∧ w'.info = w.info ∧
    (∀ p ∈ cd', p ∈ cd ∨ p.1 ∈ atts.map Prod.fst) ∧
    (∀ k, k ∉ atts.map Prod.fst → dictGet cd' k = dictGet cd k) := by
  intro atts
  induction atts with
  | nil =>
    intro w cd w' cd' h
    simp only [addAttachments, Except.ok.injEq, Prod.mk.injEq] at h
    obtain ⟨hw, hcd⟩ := h
    subst hw
    subst hcd
    exact ⟨⟨[], by simp⟩, rfl, rfl, fun p hp => Or.inl hp, fun k _ => rfl⟩
  | cons hd rest ih =>
    intro w cd w' cd' h
    cases hd with
    | mk fn a =>
      simp only [addAttachments, filespecAdditionalAttachments] at h
      cases hfd : a.filedata with
      | none =>
        rw [hfd] at h
        simp at h
      | some data =>
        rw [hfd] at h
        simp only [addObject] at h
        obtain ⟨⟨ext, hext⟩, hroot, hinfo, hmem, hget⟩ := ih _ _ _ _ h
        refine ⟨⟨[attachFileEntry orc a fn data, attachFilespec a fn (PdfObj.ref w.objs.length)] ++ ext, ?_⟩, hroot, hinfo, ?_, ?_⟩
        · rw [hext]
          simp [List.append_assoc]
        · intro p hp
          rcases hmem p hp with hin | hin
          · rcases dictSet_mem p hin with h2 | h2
            · exact Or.inl h2
            · right
              simp [h2]
          · right
            simp only [List.map_cons, List.mem_cons]
            exact Or.inr hin
        · intro k hk
          simp only [List.map_cons, List.mem_cons, not_or] at hk
          rw [hget k hk.2]
          exact dictGet_dictSet_ne _ _ _ _ hk.1

theorem addAttachments_error_msg (orc : Oracles) :
    ∀ (atts : List (String × AttachDict)) (w : WriterPdf)
      (cd : List (String × PdfObj)) (e : String),
    addAttachments orc w cd atts = Except.error e → e = "KeyError: filedata" := by
  intro atts
  induction atts with
  | nil =>
    intro w cd e h
    simp [addAttachments] at h
  | cons hd rest ih =>
    intro w cd e h
    cases hd with
    | mk fn a =>
      simp only [addAttachments, filespecAdditionalAttachments] at h
      cases hfd : a.filedata with
      | none =>
        rw [hfd] at h
        simp only [Except.error.injEq] at h
        exact h.symm
      | some data =>
        rw [hfd] at h
        exact ih _ _ _ h

/-- The objects appended by `addAttachments` when every attachment has
`filedata`, starting at object index `base`: stream then filespec, per
attachment, in order. -/
def attachObjsFrom (orc : Oracles) : Nat → List (String × AttachDict) → List PdfObj
  | _, [] => []
  | base, (fn, a) :: rest =>
    attachFileEntry orc a fn (a.filedata.getD []) ::
    attachFilespec a fn (PdfObj.ref base) ::
    attachObjsFrom orc (base + 2) rest

/-- The `name_arrayobj_cdict` entries appended by `addAttachments`. -/
def attachEntriesFrom : Nat → List (String × AttachDict) → List (String × PdfObj)
  | _, [] => []
  | base, (fn, _) :: rest => (fn, PdfObj.ref (base + 1)) :: attachEntriesFrom (base + 2) rest

theorem attachEntriesFrom_names (base : Nat) (atts : List (String × AttachDict)) :
    (attachEntriesFrom base atts).map Prod.fst = atts.map Prod.fst := by
  induction atts generalizing base with
  | nil => rfl
  | cons hd rest ih =>
    cases hd with
    | mk fn a => simp [attachEntriesFrom, ih]

/-- Normal form of `addAttachments` under fresh, distinct attachment names
with present `filedata`. -/
theorem addAttachments_normal (orc : Oracles) :
    ∀ (atts : List (String × AttachDict)) (w : WriterPdf) (cd : List (String × PdfObj)),
    (∀ p ∈ atts, p.2.filedata.isSome) →
    (∀ p ∈ atts, dictGet cd p.1 = none) →
    (atts.map Prod.fst).Nodup →
    addAttachments orc w cd atts =
      Except.ok ({ w with objs := w.objs ++ attachObjsFrom orc w.objs.length atts },
                 cd ++ attachEntriesFrom w.objs.length atts) := by
  intro atts
  induction atts with
  | nil =>
    intro w cd _ _ _
    simp [addAttachments, attachObjsFrom, attachEntriesFrom]
  | cons hd rest ih =>
    intro w cd hdata hfresh hnd
    cases hd with
    | mk fn a =>
      have hfd : ∃ data, a.filedata = some data := by
        have := hdata (fn, a) (List.mem_cons_self _ _)
        cases hx : a.filedata with
        | none => rw [hx] at this; simp at this
        | some d => exact ⟨d, rfl⟩
      obtain ⟨data, hfd⟩ := hfd
      simp only [addAttachments, filespecAdditionalAttachments, hfd, addObject]
      have hfresh0 : dictGet cd fn = none := hfresh (fn, a) (List.mem_cons_self _ _)
      have hndrest : (rest.map Prod.fst).Nodup := by
        simp only [List.map_cons, List.nodup_cons] at hnd
        exact hnd.2
      have hfnnotin : fn ∉ rest.map Prod.fst := by
        simp only [List.map_cons, List.nodup_cons] at hnd
        exact hnd.1
      rw [dictSet_of_fresh _ hfresh0]
      simp only [List.length_append, List.length_cons, List.length_nil, Nat.zero_add]
      rw [ih _ (cd ++ [(fn, PdfObj.ref (w.objs.length + 1))])
        (fun p hp => hdata p (List.mem_cons_of_mem _ hp))
        (fun p hp => by
          have hne : p.1 ≠ fn := by
            intro he
            apply hfnnotin
            rw [← he]
            exact List.mem_map_of_mem Prod.fst hp
          have h1 : dictGet (cd ++ [(fn, PdfObj.ref (w.objs.length + 1))]) p.1
              = dictGet cd p.1 := by
            rw [← dictSet_of_fresh _ hfresh0]
            exact dictGet_dictSet_ne _ _ _ _ hne
          rw [h1]
          exact hfresh p (List.mem_cons_of_mem _ hp))
        hndrest]
      simp only [Except.ok.injEq, Prod.mk.injEq]
      constructor
      · simp only [List.length_append, List.length_cons, List.length_nil]
        rw [attachObjsFrom]
        simp only [hfd, Option.getD_some]
        simp [List.append_assoc]
      · rw [attachEntriesFrom]
        simp only [List.length_append, List.length_cons, List.length_nil]
        simp [List.append_assoc]

theorem dictGet_rootUpdates_names (r : List (String × PdfObj)) (afRef metaRef : PdfObj)
    (efDict : List (String × PdfObj)) (lang : Option String)
    (ints : List PdfObj) :
    dictGet (rootUpdates r afRef metaRef efDict lang ints) "/Names" =
      some (PdfObj.dict efDict) := by
  unfold rootUpdates
  have h1 : dictGet (dictSet (dictSet (dictSet (dictSet r "/AF" afRef)
      "/Metadata" metaRef) "/Names" (PdfObj.dict efDict)) "/PageMode"
      (PdfObj.name "/UseAttachments")) "/Names" = some (PdfObj.dict efDict) := by
    rw [dictGet_dictSet_ne _ _ _ _ (by decide)]
    exact dictGet_dictSet_self _ _ _
  have h2 : ∀ root2 : List (String × PdfObj), dictGet root2 "/Names" = some (PdfObj.dict efDict) →
      dictGet (if ints.isEmpty then root2
        else dictSet root2 "/OutputIntents" (PdfObj.array ints)) "/Names" =
        some (PdfObj.dict efDict) := by
    intro root2 hr
    by_cases hi : ints.isEmpty
    · simp [hi, hr]
    · simp only [hi, if_false, Bool.false_eq_true]
      rw [dictGet_dictSet_ne _ _ _ _ (by decide)]
      exact hr
  cases lang with
  | none => exact h2 _ h1
  | some l =>
    by_cases hl : l.data.isEmpty
    · simp only [hl, if_true]
      exact h2 _ h1
    · simp only [hl, if_false, Bool.false_eq_true]
      apply h2
      rw [dictGet_dictSet_ne _ _ _ _ (by decide)]
      exact h1

/-! ## Helper lemmas: the extraction scan -/

theorem scanPairs_single (tbl : Nat → PdfObj) (pOk : List Nat → Bool)
    (xOk : String → List Nat → Bool) (cx : Bool) (fns : List String)
    (prim : String × PdfObj) :
    ∀ l : List (String × PdfObj),
    prim ∈ l → prim.1 ∈ fns →
    (∀ p ∈ l, p.1 ∈ fns → p = prim) →
    scanPairs tbl pOk xOk cx fns (l.map (fun kv => (PdfObj.string kv.1, kv.2))) =
      (processPair tbl pOk xOk cx prim.1 prim.2).map some := by
  intro l
  induction l with
  | nil =>
    intro h
    simp at h
  | cons hd rest ih =>
    intro hmem hfns honly
    simp only [List.map_cons, scanPairs]
    by_cases hin : hd.1 ∈ fns
    · have he : hd = prim := honly hd (List.mem_cons_self _ _) hin
      rw [he]
      simp [hfns]
    · simp only [hin, if_false]
      apply ih
      · rcases List.mem_cons.mp hmem with he | hr
        · exact absurd (he ▸ hfns) hin
        · exact hr
      · exact hfns
      · intro p hp h
        exact honly p (List.mem_cons_of_mem _ hp) h

/-- The reader-side view of a written PDF: the writer's object list becomes
the reader's object table (serialization and re-parsing by the PDF store are
the identity on the object graph), and the writer's root becomes the
catalog. -/
def tblOf (objs : List PdfObj) : Nat → PdfObj :=
  fun n => (objs[n]?).getD PdfObj.null

def pdfOfWriter (w : WriterPdf) : PdfFile :=
  { objects := tblOf w.objs, root := w.root }

/-- Extraction from any PDF whose catalog holds the assembler's name array,
when exactly one pair carries a recognized filename and processing that pair
succeeds. -/
theorem extract_from_embed (pOk : List Nat → Bool) (xOk : String → List Nat → Bool)
    (cx : Bool) (tbl : Nat → PdfObj) (root : List (String × PdfObj))
    (sortedNames : List (String × PdfObj)) (prim : String × PdfObj) (xml : List Nat)
    (hroot : dictGet root "/Names" =
      some (PdfObj.dict [("/EmbeddedFiles", PdfObj.dict [("/Names",
        PdfObj.array ((sortedNames.map (fun kv => [PdfObj.string kv.1, kv.2])).flatten))])]))
    (hmem : prim ∈ sortedNames)
    (hfns : prim.1 ∈ ALL_FILENAMES)
    (honly : ∀ p ∈ sortedNames, p.1 ∈ ALL_FILENAMES → p = prim)
    (hproc : processPair tbl pOk xOk cx prim.1 prim.2 = Except.ok (prim.1, xml)) :
    getXmlFromPdf pOk xOk cx [] (some { objects := tbl, root := root }) =
      ExtractResult.found prim.1 xml := by
  unfold getXmlFromPdf
  dsimp only
  have hcat : getDictEntry tbl root "/Names" =
      some [("/EmbeddedFiles", PdfObj.dict [("/Names",
        PdfObj.array ((sortedNames.map (fun kv => [PdfObj.string kv.1, kv.2])).flatten))])] := by
    unfold getDictEntry
    rw [hroot]
  rw [hcat]
  have hef : getDictEntry tbl
      [("/EmbeddedFiles", PdfObj.dict [("/Names",
        PdfObj.array ((sortedNames.map (fun kv => [PdfObj.string kv.1, kv.2])).flatten))])]
      "/EmbeddedFiles" =
      some [("/Names",
        PdfObj.array ((sortedNames.map (fun kv => [PdfObj.string kv.1, kv.2])).flatten))] := rfl
  simp only [List.isEmpty_nil, if_true, List.isEmpty_cons, hef]
  have hemb : getEmbeddedfiles tbl
      [("/Names", PdfObj.array ((sortedNames.map (fun kv => [PdfObj.string kv.1, kv.2])).flatten))] =
      Except.ok (some ((sortedNames.map (fun kv => [PdfObj.string kv.1, kv.2])).flatten)) := by
    unfold getEmbeddedfiles
    have : dictGet [("/Names", PdfObj.array ((sortedNames.map (fun kv => [PdfObj.string kv.1, kv.2])).flatten))] "/Names" =
        some (PdfObj.array ((sortedNames.map (fun kv => [PdfObj.string kv.1, kv.2])).flatten)) := rfl
    rw [this]
    simp only [getObj]
    rw [flatten_pairs_length]
    simp
  rw [hemb]
  have hne : sortedNames ≠ [] := List.ne_nil_of_mem hmem
  have hlen : ((sortedNames.map (fun kv => [PdfObj.string kv.1, kv.2])).flatten).length =
      2 * sortedNames.length := flatten_pairs_length sortedNames
  have hnemp : ((sortedNames.map (fun kv => [PdfObj.string kv.1, kv.2])).flatten).isEmpty = false := by
    rw [List.isEmpty_eq_false_iff_exists_mem]
    have hlpos : 0 < sortedNames.length := List.length_pos.mpr hne
    have : 0 < ((sortedNames.map (fun kv => [PdfObj.string kv.1, kv.2])).flatten).length := by
      omega
    exact List.exists_mem_of_length_pos this
  simp only [hnemp, Bool.false_eq_true, if_false]
  rw [byTwo_flatten_pairs]
  rw [scanPairs_single tbl pOk xOk cx ALL_FILENAMES prim sortedNames hmem hfns honly]
  rw [hproc]
  rfl

theorem canonicalFilename_mem (flavor : String) :
    canonicalFilename flavor ∈ ALL_FILENAMES := by
  unfold canonicalFilename
  by_cases h : flavor = "order-x" <;>
    simp [h, ALL_FILENAMES, FACTURX_FILENAME, ORDERX_FILENAME, ZUGFERD_FILENAMES]

/-- Inversion of a successful `_facturx_update_metadata_add_attachment` run:
the sorted name pairs come from sorting the `name_arrayobj_cdict`; the
primary stream and filespec sit at the first two fresh object indices; the
root's `/Names` entry holds the assembled EmbeddedFiles tree; the `/AF`
array lists the filespecs in Names order; and the cdict is the primary entry
plus entries named after the supplementary attachments. -/
theorem embed_inversion (orc : Oracles) (w0 : WriterPdf) (xmlBytes : List Nat)
    (pdfMetadata : List (String × String)) (flavor level : String)
    (orderxType : Option String) (lang : Option String)
    (outputIntents : List (List (String × PdfObj) × PdfObj))
    (atts : List (String × AttachDict)) (afrel : String) (res : EmbedOut)
    (hemb : facturxUpdateMetadataAddAttachment orc w0 xmlBytes pdfMetadata flavor level
      orderxType lang outputIntents atts afrel = Except.ok res) :
    ∃ (cdict : List (String × PdfObj)) (tail : List PdfObj) (w3 : WriterPdf),
      res.sortedNames = List.insertionSort pairNameLe cdict ∧
      res.pdf.objs = w0.objs ++ primaryFileEntry orc xmlBytes ::
        primaryFilespec (canonicalFilename flavor) (canonicalDesc flavor) afrel
          (PdfObj.ref w0.objs.length) :: tail ∧
      dictGet res.pdf.root "/Names" = some (PdfObj.dict
        [("/EmbeddedFiles", PdfObj.dict [("/Names", PdfObj.array
          ((res.sortedNames.map (fun kv => [PdfObj.string kv.1, kv.2])).flatten))])]) ∧
      res.afList = res.sortedNames.map Prod.snd ∧
      (∀ p ∈ cdict,
        p ∈ [(canonicalFilename flavor, PdfObj.ref (w0.objs.length + 1))] ∨
        p.1 ∈ atts.map Prod.fst) ∧
      (∀ k, k ∉ atts.map Prod.fst → dictGet cdict k =
        dictGet [(canonicalFilename flavor, PdfObj.ref (w0.objs.length + 1))] k) ∧
      addAttachments orc
        { objs := w0.objs ++ [primaryFileEntry orc xmlBytes] ++
            [primaryFilespec (canonicalFilename flavor) (canonicalDesc flavor) afrel
              (PdfObj.ref w0.objs.length)],
          root := w0.root, info := w0.info }
        [(canonicalFilename flavor, PdfObj.ref (w0.objs.length + 1))] atts =
        Except.ok (w3, cdict) := by
  simp only [facturxUpdateMetadataAddAttachment, addObject, List.length_append,
    List.length_cons, List.length_nil, Nat.zero_add] at hemb
  split at hemb
  · cases hemb
  split at hemb
  · cases hemb
  rename_i hguard1 hguard2
  split at hemb
  · cases hemb
  rename_i w3 cdict heq
  rw [Except.ok.injEq] at hemb
  subst hemb
  case _ =>
  obtain ⟨⟨extA, hextA⟩, hrootA, hinfoA, hmemA, hgetA⟩ :=
    addAttachments_props orc atts _ _ _ _ heq
  obtain ⟨⟨extI, hextI⟩, hrootI, hinfoI⟩ := addOutputIntents_props outputIntents w3
  refine ⟨cdict, extA ++ extI ++
      [PdfObj.stream [("/Subtype", PdfObj.name "/XML"), ("/Type", PdfObj.name "/Metadata")]
        (orc.xmpBytes flavor level orderxType pdfMetadata)] ++
      [PdfObj.array (List.map Prod.snd (List.insertionSort pairNameLe cdict))],
    w3, rfl, ?_, ?_, rfl, hmemA, hgetA, heq⟩
  · show (addOutputIntents w3 outputIntents).1.objs ++ _ ++ _ = _
    rw [hextI, hextA]
    simp [List.append_assoc]
  · exact dictGet_rootUpdates_names _ _ _ _ _ _

/-- The scan-loop body applied to the primary filespec of an embed run:
fetches the embedded stream behind `/EF` `/F` and branches on the XML parse
and (when requested) the XSD validation. -/
theorem processPair_primary (orc : Oracles) (pOk : List Nat → Bool)
    (xOk : String → List Nat → Bool) (cx : Bool) (pre : List PdfObj)
    (xmlBytes : List Nat) (fname desc afrel : String) (tail : List PdfObj) :
    processPair (tblOf (pre ++ primaryFileEntry orc xmlBytes ::
        primaryFilespec fname desc afrel (PdfObj.ref pre.length) :: tail)) pOk xOk cx
      fname (PdfObj.ref (pre.length + 1)) =
      (if pOk xmlBytes then
        (if cx then
          (if xOk (detectedFlavorForFilename fname) xmlBytes then
            Except.ok (fname, xmlBytes)
          else Except.error "not valid against the official XML Schema Definition")
        else Except.ok (fname, xmlBytes))
      else Except.error "The XML syntax is invalid") := by
  set bigL : List PdfObj := pre ++ primaryFileEntry orc xmlBytes ::
      primaryFilespec fname desc afrel (PdfObj.ref pre.length) :: tail with hbigL
  have hpos0 : tblOf bigL pre.length = primaryFileEntry orc xmlBytes := by
    unfold tblOf
    rw [hbigL, getAt_append_len]
    rfl
  have hpos1 : tblOf bigL (pre.length + 1) =
      primaryFilespec fname desc afrel (PdfObj.ref pre.length) := by
    unfold tblOf
    rw [hbigL, getAt_append_len_succ]
    rfl
  unfold processPair
  dsimp only [getObj]
  rw [hpos1]
  dsimp only [primaryFilespec]
  have h1 : dictItem (tblOf bigL)
      [("/AFRelationship", PdfObj.name ("/" ++ capStr afrel)),
       ("/Desc", PdfObj.string desc),
       ("/Type", PdfObj.name "/Filespec"),
       ("/F", PdfObj.string fname),
       ("/EF", PdfObj.dict [("/F", PdfObj.ref pre.length),
                            ("/UF", PdfObj.ref pre.length)]),
       ("/UF", PdfObj.string fname)] "/EF" =
      some (PdfObj.dict [("/F", PdfObj.ref pre.length),
                         ("/UF", PdfObj.ref pre.length)]) := rfl
  rw [h1]
  dsimp only
  have h2 : dictItem (tblOf bigL)
      [("/F", PdfObj.ref pre.length), ("/UF", PdfObj.ref pre.length)] "/F" =
      some (tblOf bigL pre.length) := rfl
  rw [h2, hpos0]
  dsimp only [primaryFileEntry]

/-- C1. Round trip: embedding an XML payload with
`_facturx_update_metadata_add_attachment` and extracting it back with
`get_xml_from_pdf` (default filenames) returns exactly the embedded XML
bytes, for well-formed, schema-valid payloads and supplementary attachments
that avoid the reserved canonical filenames (as `generate_from_file`
guarantees). -/
theorem c1_round_trip (orc : Oracles) (w0 : WriterPdf) (xmlBytes : List Nat)
    (pdfMetadata : List (String × String)) (flavor level : String)
    (orderxType : Option String) (lang : Option String)
    (outputIntents : List (List (String × PdfObj) × PdfObj))
    (atts : List (String × AttachDict)) (afrel : String)
    (pOk : List Nat → Bool) (xOk : String → List Nat → Bool) (cx : Bool)
    (res : EmbedOut)
    (hatts : ∀ p ∈ atts, p.1 ∉ ALL_FILENAMES)
    (hparse : pOk xmlBytes = true)
    (hxsd : cx = true →
      xOk (detectedFlavorForFilename (canonicalFilename flavor)) xmlBytes = true)
    (hemb : facturxUpdateMetadataAddAttachment orc w0 xmlBytes pdfMetadata flavor level
      orderxType lang outputIntents atts afrel = Except.ok res) :
    getXmlFromPdf pOk xOk cx [] (some (pdfOfWriter res.pdf)) =
      ExtractResult.found (canonicalFilename flavor) xmlBytes := by
  obtain ⟨cdict, tail, w3x, hsn, hobjs, hroot, _haf, hmemA, hgetA, heq⟩ :=
    embed_inversion orc w0 xmlBytes pdfMetadata flavor level orderxType lang
      outputIntents atts afrel res hemb
  have hcanon : canonicalFilename flavor ∉ atts.map Prod.fst := by
    intro hc
    obtain ⟨p, hp, hpe⟩ := List.mem_map.mp hc
    exact hatts p hp (hpe ▸ canonicalFilename_mem flavor)
  have hget0 : dictGet cdict (canonicalFilename flavor) =
      some (PdfObj.ref (w0.objs.length + 1)) := by
    rw [hgetA _ hcanon]
    simp [dictGet]
  have hperm : res.sortedNames.Perm cdict := by
    rw [hsn]
    exact List.perm_insertionSort pairNameLe cdict
  have hmemS : (canonicalFilename flavor, PdfObj.ref (w0.objs.length + 1)) ∈
      res.sortedNames := hperm.mem_iff.mpr (dictGet_mem hget0)
  have honly2 : ∀ p ∈ res.sortedNames, p.1 ∈ ALL_FILENAMES →
      p = (canonicalFilename flavor, PdfObj.ref (w0.objs.length + 1)) := by
    intro p hp hf
    rcases hmemA p (hperm.mem_iff.mp hp) with hin | hin
    · simpa using hin
    · obtain ⟨q, hq, hqe⟩ := List.mem_map.mp hin
      exact absurd (hqe ▸ hf) (hatts q hq)
  have hproc : processPair (tblOf res.pdf.objs) pOk xOk cx (canonicalFilename flavor)
      (PdfObj.ref (w0.objs.length + 1)) =
      Except.ok (canonicalFilename flavor, xmlBytes) := by
    rw [hobjs, processPair_primary, hparse]
    cases cx with
    | false => rfl
    | true =>
      rw [hxsd rfl]
      rfl
  exact extract_from_embed pOk xOk cx (tblOf res.pdf.objs) res.pdf.root res.sortedNames
    (canonicalFilename flavor, PdfObj.ref (w0.objs.length + 1)) xmlBytes
    hroot hmemS (canonicalFilename_mem flavor) honly2 hproc

/-- C5 counterexample: `get_level` on an invoice-dialect document whose
guideline URN ends in `:comfort` (an Order-X-only level) succeeds and returns
`comfort`, although the claim's flavor-specific rule requires a failure for
the invoice dialect, whose valid-level set does not contain `comfort`. -/
theorem c5_counterexample :
    getLevelFromId "urn:factur-x.eu:1p0:comfort" = Except.ok "comfort" ∧
    "comfort" ∉ facturxLevels ∧
    getLevel (some "urn:factur-x.eu:1p0:comfort") = Except.ok "comfort" := by
  refine ⟨rfl, ?_, rfl⟩
  decide

/-- C5 (amended): the level-token fallback of `get_level` is
flavor-independent: a successful classification always returns a member of
the union `possible_values` of the Factur-X and Order-X level sets, taken
from the last colon-delimited segment or, failing that, the second-to-last;
when neither segment is in the union the classification raises. -/
theorem c5_level_token_union (docId : String) :
    (∀ lvl, getLevelFromId docId = Except.ok lvl → lvl ∈ possibleLevels) ∧
    (∀ lvl, getLevelFromId docId = Except.ok lvl →
      lvl = (⟨(splitColon docId.data).getLastD []⟩ : String) ∨
      lvl = (⟨(splitColon docId.data).getD ((splitColon docId.data).length - 2) []⟩ : String)) ∧
    ((⟨(splitColon docId.data).getLastD []⟩ : String) ∉ possibleLevels →
      (⟨(splitColon docId.data).getD ((splitColon docId.data).length - 2) []⟩ : String) ∉ possibleLevels →
      ∃ e, getLevelFromId docId = Except.error e) := by
  unfold getLevelFromId
  by_cases h1 : (⟨(splitColon docId.data).getLastD []⟩ : String) ∈ possibleLevels
  · rw [if_pos h1]
    refine ⟨?_, ?_, ?_⟩
    · intro lvl hl
      rw [Except.ok.injEq] at hl
      rw [← hl]
      exact h1
    · intro lvl hl
      rw [Except.ok.injEq] at hl
      exact Or.inl hl.symm
    · intro hc
      exact absurd h1 hc
  · rw [if_neg h1]
    by_cases h2 : 2 ≤ (splitColon docId.data).length
    · rw [dif_pos h2]
      have hgd : (splitColon docId.data).getD ((splitColon docId.data).length - 2) [] =
          (splitColon docId.data)[(splitColon docId.data).length - 2] := by
        rw [List.getD_eq_getElem?_getD, List.getElem?_eq_getElem (by omega)]
        rfl
      by_cases h3 : (⟨(splitColon docId.data)[(splitColon docId.data).length - 2]⟩ : String)
          ∈ possibleLevels
      · rw [if_pos h3]
        refine ⟨?_, ?_, ?_⟩
        · intro lvl hl
          rw [Except.ok.injEq] at hl
          rw [← hl]
          exact h3
        · intro lvl hl
          rw [Except.ok.injEq] at hl
          right
          rw [← hl, hgd]
        · intro _ hc
          rw [hgd] at hc
          exact absurd h3 hc
      · rw [if_neg h3]
        refine ⟨?_, ?_, ?_⟩
        · intro lvl hl
          cases hl
        · intro lvl hl
          cases hl
        · intro _ _
          exact ⟨_, rfl⟩
    · rw [dif_neg h2]
      refine ⟨?_, ?_, ?_⟩
      · intro lvl hl
        cases hl
      · intro lvl hl
        cases hl
      · intro _ _
        exact ⟨_, rfl⟩

/-! ## C2: the bounded name-tree walk -/

/-- A name tree whose leaf sits exactly at depth Kids→Kids. -/
def kidsDepth2Table : Nat → PdfObj := fun n =>
  if n = 0 then PdfObj.dict [("/Kids", PdfObj.array [PdfObj.ref 1])]
  else if n = 1 then
    PdfObj.dict [("/Names", PdfObj.array [PdfObj.string "factur-x.xml", PdfObj.ref 9])]
  else PdfObj.null

def kidsDepth2Node : List (String × PdfObj) := [("/Kids", PdfObj.array [PdfObj.ref 0])]

/-- A name tree with a valid leaf child (object 0) next to a branch whose
grandchild (object 2) opens a third `/Kids` level. Object 4/5 are the
filespec and stream for the leaf's `factur-x.xml` entry. -/
def kidsDepth3Table : Nat → PdfObj := fun n =>
  if n = 0 then
    PdfObj.dict [("/Names", PdfObj.array [PdfObj.string "factur-x.xml", PdfObj.ref 4])]
  else if n = 1 then PdfObj.dict [("/Kids", PdfObj.array [PdfObj.ref 2])]
  else if n = 2 then PdfObj.dict [("/Kids", PdfObj.array [])]
  else if n = 4 then PdfObj.dict [("/EF", PdfObj.dict [("/F", PdfObj.ref 5)])]
  else if n = 5 then PdfObj.stream [] [60, 63]
  else PdfObj.null

def kidsDepth3Node : List (String × PdfObj) :=
  [("/Kids", PdfObj.array [PdfObj.ref 0, PdfObj.ref 1])]

def kidsDepth3Pdf : PdfFile :=
  { objects := kidsDepth3Table,
    root := [("/Names", PdfObj.dict [("/EmbeddedFiles", PdfObj.dict kidsDepth3Node)])] }

/-- C2. Two levels of `/Kids` are parsed and their `/Names` pairs collected
(first conjunct, as the claim states). But a third level of `/Kids` nesting
is NOT reported as a malformed name tree: `_parse_embeddedfiles_kids_node`
discards the boolean result of its recursive call (facturx.py line 247), so
the walk returns the partial pair list it collected from the well-formed
sibling (second conjunct) and extraction succeeds on it (third conjunct),
where the claim and spec require the malformed outcome. -/
theorem c2_name_tree_depth_behavior :
    getEmbeddedfiles kidsDepth2Table kidsDepth2Node =
      Except.ok (some [PdfObj.string "factur-x.xml", PdfObj.ref 9]) ∧
    getEmbeddedfiles kidsDepth3Table kidsDepth3Node =
      Except.ok (some [PdfObj.string "factur-x.xml", PdfObj.ref 4]) ∧
    getXmlFromPdf (fun _ => true) (fun _ _ => true) false [] (some kidsDepth3Pdf) =
      ExtractResult.found "factur-x.xml" [60, 63] := by
  refine ⟨?_, ?_, ?_⟩
  · simp [getEmbeddedfiles, parseEmbeddedfilesKidsNode, parseKidsLoop, kidsDepth2Table,
      kidsDepth2Node, dictGet, getObj]
  · simp [getEmbeddedfiles, parseEmbeddedfilesKidsNode, parseKidsLoop, kidsDepth3Table,
      kidsDepth3Node, dictGet, getObj]
  · simp [getXmlFromPdf, getDictEntry, getEmbeddedfiles, parseEmbeddedfilesKidsNode,
      parseKidsLoop, kidsDepth3Pdf, kidsDepth3Table, kidsDepth3Node, dictGet, getObj,
      byTwo, scanPairs, processPair, dictItem, Except.map, ALL_FILENAMES,
      FACTURX_FILENAME, ZUGFERD_FILENAMES, ORDERX_FILENAME]

/-! ## C4: extraction never raises on structural problems -/

theorem parseKidsLoop_level2_ok (tbl : Nat → PdfObj) :
    ∀ (kids res : List PdfObj), ∃ pr, parseKidsLoop tbl 2 kids res = Except.ok pr := by
  intro kids
  induction kids with
  | nil =>
    intro res
    exact ⟨(true, res), by simp [parseKidsLoop]⟩
  | cons kid rest ih =>
    intro res
    cases kid
    case ref n =>
      cases htn : tbl n
      case dict kvs =>
        cases hnm : dictGet kvs "/Names"
        case some nraw =>
          cases hno : getObj tbl nraw
          case array names =>
            obtain ⟨pr, hpr⟩ := ih (res ++ names)
            exact ⟨pr, by simp [parseKidsLoop, htn, hnm, hno, hpr]⟩
          all_goals exact ⟨(false, res), by simp [parseKidsLoop, htn, hnm, hno]⟩
        case none =>
          cases hks : dictGet kvs "/Kids"
          case some kraw =>
            exact ⟨(false, res), by simp [parseKidsLoop, htn, hnm, hks]⟩
          case none =>
            exact ⟨(false, res), by simp [parseKidsLoop, htn, hnm, hks]⟩
      all_goals exact ⟨(false, res), by simp [parseKidsLoop, htn]⟩
    all_goals exact ⟨(false, res), by simp [parseKidsLoop]⟩

theorem parseNode_level2_ok (tbl : Nat → PdfObj) (node : PdfObj) (res : List PdfObj) :
    ∃ pr, parseEmbeddedfilesKidsNode tbl 2 node res = Except.ok pr := by
  cases node
  case array kids =>
    obtain ⟨pr, hpr⟩ := parseKidsLoop_level2_ok tbl kids res
    exact ⟨pr, by simp [parseEmbeddedfilesKidsNode, hpr]⟩
  all_goals exact ⟨(false, res), by simp [parseEmbeddedfilesKidsNode]⟩

theorem parseKidsLoop_level1_ok (tbl : Nat → PdfObj) :
    ∀ (kids res : List PdfObj), ∃ pr, parseKidsLoop tbl 1 kids res = Except.ok pr := by
  intro kids
  induction kids with
  | nil =>
    intro res
    exact ⟨(true, res), by simp [parseKidsLoop]⟩
  | cons kid rest ih =>
    intro res
    cases kid
    case ref n =>
      cases htn : tbl n
      case dict kvs =>
        cases hnm : dictGet kvs "/Names"
        case some nraw =>
          cases hno : getObj tbl nraw
          case array names =>
            obtain ⟨pr, hpr⟩ := ih (res ++ names)
            exact ⟨pr, by simp [parseKidsLoop, htn, hnm, hno, hpr]⟩
          all_goals exact ⟨(false, res), by simp [parseKidsLoop, htn, hnm, hno]⟩
        case none =>
          cases hks : dictGet kvs "/Kids"
          case some kraw =>
            obtain ⟨pr2, hpr2⟩ := parseNode_level2_ok tbl (getObj tbl kraw) res
            obtain ⟨pr, hpr⟩ := ih pr2.2
            exact ⟨pr, by simp [parseKidsLoop, htn, hnm, hks, hpr2, hpr]⟩
          case none =>
            exact ⟨(false, res), by simp [parseKidsLoop, htn, hnm, hks]⟩
      all_goals exact ⟨(false, res), by simp [parseKidsLoop, htn]⟩
    all_goals exact ⟨(false, res), by simp [parseKidsLoop]⟩

theorem parseNode_level1_ok (tbl : Nat → PdfObj) (node : PdfObj) (res : List PdfObj) :
    ∃ pr, parseEmbeddedfilesKidsNode tbl 1 node res = Except.ok pr := by
  cases node
  case array kids =>
    obtain ⟨pr, hpr⟩ := parseKidsLoop_level1_ok tbl kids res
    exact ⟨pr, by simp [parseEmbeddedfilesKidsNode, hpr]⟩
  all_goals exact ⟨(false, res), by simp [parseEmbeddedfilesKidsNode]⟩

/-- The embedded-files walk, called as `get_xml_from_pdf` calls it, never
propagates an exception. -/
theorem getEmbeddedfiles_ok (tbl : Nat → PdfObj) (node : List (String × PdfObj)) :
    ∃ o, getEmbeddedfiles tbl node = Except.ok o := by
  cases hnm : dictGet node "/Names"
  case some nraw =>
    cases hno : getObj tbl nraw
    case array res =>
      by_cases h : res.length % 2 = 1
      · exact ⟨none, by simp [getEmbeddedfiles, hnm, hno, h]⟩
      · exact ⟨some res, by simp [getEmbeddedfiles, hnm, hno, h]⟩
    all_goals exact ⟨none, by simp [getEmbeddedfiles, hnm, hno]⟩
  case none =>
    cases hks : dictGet node "/Kids"
    case some kraw =>
      obtain ⟨pr, hpr⟩ := parseNode_level1_ok tbl (getObj tbl kraw) []
      cases pr with
      | mk b res2 =>
        cases b
        · exact ⟨none, by simp [getEmbeddedfiles, hnm, hks, hpr]⟩
        · by_cases h : res2.length % 2 = 1
          · exact ⟨none, by simp [getEmbeddedfiles, hnm, hks, hpr, h]⟩
          · exact ⟨some res2, by simp [getEmbeddedfiles, hnm, hks, hpr, h]⟩
    case none => exact ⟨none, by simp [getEmbeddedfiles, hnm, hks]⟩

/-- A PDF whose only embedded file has an unrecognized name. -/
def noMatchPdf : PdfFile :=
  { objects := fun _ => PdfObj.null,
    root := [("/Names", PdfObj.dict [("/EmbeddedFiles",
      PdfObj.dict [("/Names", PdfObj.array [PdfObj.string "other.txt", PdfObj.ref 0])])])] }

/-- C4 counterexample: when no recognized filename matches, the scan loop
completes and `get_xml_from_pdf` returns the loop variables' initial values
`(False, False)` (line 313), not the distinct `(None, None)` pair the claim
names for that case. -/
theorem c4_counterexample :
    getXmlFromPdf (fun _ => true) (fun _ _ => true) true [] (some noMatchPdf) =
      ExtractResult.falsePair ∧
    ExtractResult.falsePair ≠ ExtractResult.nonePair := by
  exact ⟨rfl, by decide⟩

/-- C4 (amended): extraction never raises on structural problems: for every
PDF the reader accepts, `get_xml_from_pdf` returns a falsy not-found pair —
`(None, None)` for a missing or malformed name tree and for errors while
reading a matched pair, `(False, False)` when the scan completes with no
recognized filename — or a found pair; it raises only for genuinely invalid
caller arguments (missing `pdf_file`, wrong argument types). -/
theorem c4_extraction_never_raises (pOk : List Nat → Bool)
    (xOk : String → List Nat → Bool) (cx : Bool) (filenames : List String)
    (pdf : PdfFile) (msg : String) :
    getXmlFromPdf pOk xOk cx filenames (some pdf) ≠ ExtractResult.raised msg := by
  intro h
  unfold getXmlFromPdf at h
  dsimp only at h
  cases h1 : getDictEntry pdf.objects pdf.root "/Names" with
  | none =>
    rw [h1] at h
    simp at h
  | some catalogName =>
    rw [h1] at h
    dsimp only at h
    by_cases h2 : catalogName.isEmpty = true
    · rw [if_pos h2] at h
      simp at h
    · rw [if_neg h2] at h
      cases h3 : getDictEntry pdf.objects catalogName "/EmbeddedFiles" with
      | none =>
        rw [h3] at h
        simp at h
      | some efNode =>
        rw [h3] at h
        dsimp only at h
        by_cases h4 : efNode.isEmpty = true
        · rw [if_pos h4] at h
          simp at h
        · rw [if_neg h4] at h
          obtain ⟨o, ho⟩ := getEmbeddedfiles_ok pdf.objects efNode
          rw [ho] at h
          cases o with
          | none => simp at h
          | some embedded =>
            dsimp only at h
            by_cases h5 : embedded.isEmpty = true
            · rw [if_pos h5] at h
              simp at h
            · rw [if_neg h5] at h
              cases h6 : scanPairs pdf.objects pOk xOk cx
                  (if filenames.isEmpty = true then ALL_FILENAMES else filenames)
                  (byTwo embedded) with
              | error e =>
                rw [h6] at h
                simp at h
              | ok oo =>
                rw [h6] at h
                cases oo with
                | none => simp at h
                | some p =>
                  cases p with
                  | mk a b => simp at h

/-! ## C9: extraction swallows processing failures -/

/-- As `extract_from_embed`, but the matched pair's processing raises: the
`try`/`except` around the scan loop turns it into `(None, None)`. -/
theorem extract_from_embed_error (pOk : List Nat → Bool) (xOk : String → List Nat → Bool)
    (cx : Bool) (tbl : Nat → PdfObj) (root : List (String × PdfObj))
    (sortedNames : List (String × PdfObj)) (prim : String × PdfObj) (msg : String)
    (hroot : dictGet root "/Names" =
      some (PdfObj.dict [("/EmbeddedFiles", PdfObj.dict [("/Names",
        PdfObj.array ((sortedNames.map (fun kv => [PdfObj.string kv.1, kv.2])).flatten))])]))
    (hmem : prim ∈ sortedNames)
    (hfns : prim.1 ∈ ALL_FILENAMES)
    (honly : ∀ p ∈ sortedNames, p.1 ∈ ALL_FILENAMES → p = prim)
    (hproc : processPair tbl pOk xOk cx prim.1 prim.2 = Except.error msg) :
    getXmlFromPdf pOk xOk cx [] (some { objects := tbl, root := root }) =
      ExtractResult.nonePair := by
  unfold getXmlFromPdf
  dsimp only
  have hcat : getDictEntry tbl root "/Names" =
      some [("/EmbeddedFiles", PdfObj.dict [("/Names",
        PdfObj.array ((sortedNames.map (fun kv => [PdfObj.string kv.1, kv.2])).flatten))])] := by
    unfold getDictEntry
    rw [hroot]
  rw [hcat]
  have hef : getDictEntry tbl
      [("/EmbeddedFiles", PdfObj.dict [("/Names",
        PdfObj.array ((sortedNames.map (fun kv => [PdfObj.string kv.1, kv.2])).flatten))])]
      "/EmbeddedFiles" =
      some [("/Names",
        PdfObj.array ((sortedNames.map (fun kv => [PdfObj.string kv.1, kv.2])).flatten))] := rfl
  simp only [List.isEmpty_nil, if_true, List.isEmpty_cons, hef]
  have hemb : getEmbeddedfiles tbl
      [("/Names", PdfObj.array ((sortedNames.map (fun kv => [PdfObj.string kv.1, kv.2])).flatten))] =
      Except.ok (some ((sortedNames.map (fun kv => [PdfObj.string kv.1, kv.2])).flatten)) := by
    unfold getEmbeddedfiles
    have : dictGet [("/Names", PdfObj.array ((sortedNames.map (fun kv => [PdfObj.string kv.1, kv.2])).flatten))] "/Names" =
        some (PdfObj.array ((sortedNames.map (fun kv => [PdfObj.string kv.1, kv.2])).flatten)) := rfl
    rw [this]
    simp only [getObj]
    rw [flatten_pairs_length]
    simp
  rw [hemb]
  have hne : sortedNames ≠ [] := List.ne_nil_of_mem hmem
  have hnemp : ((sortedNames.map (fun kv => [PdfObj.string kv.1, kv.2])).flatten).isEmpty = false := by
    rw [List.isEmpty_eq_false_iff_exists_mem]
    have hlpos : 0 < sortedNames.length := List.length_pos.mpr hne
    have : 0 < ((sortedNames.map (fun kv => [PdfObj.string kv.1, kv.2])).flatten).length := by
      rw [flatten_pairs_length]
      omega
    exact List.exists_mem_of_length_pos this
  simp only [hnemp, Bool.false_eq_true, if_false]
  rw [byTwo_flatten_pairs]
  rw [scanPairs_single tbl pOk xOk cx ALL_FILENAMES prim sortedNames hmem hfns honly]
  rw [hproc]
  rfl

/-- C9. For a PDF carrying a recognized embedded XML filename,
`get_xml_from_pdf` with `check_xsd=True` returns `(None, None)` instead of
raising when processing the matched pair fails: (1) when the payload is not
well-formed XML; (2) when the payload fails XSD validation; (3) when the
matched file specification lacks the `/EF` entry. The failure is swallowed
by the extraction path's `try`/`except`, unlike the embed path. -/
theorem c9_extraction_swallows_failures :
    (∀ (orc : Oracles) (w0 : WriterPdf) (xmlBytes : List Nat)
       (pdfMetadata : List (String × String)) (flavor level : String)
       (orderxType lang : Option String)
       (outputIntents : List (List (String × PdfObj) × PdfObj))
       (atts : List (String × AttachDict)) (afrel : String)
       (pOk : List Nat → Bool) (xOk : String → List Nat → Bool) (res : EmbedOut),
      (∀ p ∈ atts, p.1 ∉ ALL_FILENAMES) →
      facturxUpdateMetadataAddAttachment orc w0 xmlBytes pdfMetadata flavor level
        orderxType lang outputIntents atts afrel = Except.ok res →
      pOk xmlBytes = false →
      getXmlFromPdf pOk xOk true [] (some (pdfOfWriter res.pdf)) =
        ExtractResult.nonePair) ∧
    (∀ (orc : Oracles) (w0 : WriterPdf) (xmlBytes : List Nat)
       (pdfMetadata : List (String × String)) (flavor level : String)
       (orderxType lang : Option String)
       (outputIntents : List (List (String × PdfObj) × PdfObj))
       (atts : List (String × AttachDict)) (afrel : String)
       (pOk : List Nat → Bool) (xOk : String → List Nat → Bool) (res : EmbedOut),
      (∀ p ∈ atts, p.1 ∉ ALL_FILENAMES) →
      facturxUpdateMetadataAddAttachment orc w0 xmlBytes pdfMetadata flavor level
        orderxType lang outputIntents atts afrel = Except.ok res →
      pOk xmlBytes = true →
      xOk (detectedFlavorForFilename (canonicalFilename flavor)) xmlBytes = false →
      getXmlFromPdf pOk xOk true [] (some (pdfOfWriter res.pdf)) =
        ExtractResult.nonePair) ∧
    (∀ (fn : String) (specDict : List (String × PdfObj))
       (pOk : List Nat → Bool) (xOk : String → List Nat → Bool),
      fn ∈ ALL_FILENAMES →
      dictGet specDict "/EF" = none →
      getXmlFromPdf pOk xOk true []
        (some { objects := fun n => if n = 0 then PdfObj.dict specDict else PdfObj.null,
                root := [("/Names", PdfObj.dict [("/EmbeddedFiles", PdfObj.dict
                  [("/Names", PdfObj.array [PdfObj.string fn, PdfObj.ref 0])])])] }) =
        ExtractResult.nonePair) := by
  refine ⟨?_, ?_, ?_⟩
  · intro orc w0 xmlBytes pdfMetadata flavor level orderxType lang outputIntents atts
      afrel pOk xOk res hatts hemb hparse
    obtain ⟨cdict, tail, w3x, hsn, hobjs, hroot, _haf, hmemA, hgetA, heq⟩ :=
      embed_inversion orc w0 xmlBytes pdfMetadata flavor level orderxType lang
        outputIntents atts afrel res hemb
    have hcanon : canonicalFilename flavor ∉ atts.map Prod.fst := by
      intro hc
      obtain ⟨p, hp, hpe⟩ := List.mem_map.mp hc
      exact hatts p hp (hpe ▸ canonicalFilename_mem flavor)
    have hget0 : dictGet cdict (canonicalFilename flavor) =
        some (PdfObj.ref (w0.objs.length + 1)) := by
      rw [hgetA _ hcanon]
      simp [dictGet]
    have hperm : res.sortedNames.Perm cdict := by
      rw [hsn]
      exact List.perm_insertionSort pairNameLe cdict
    have hmemS : (canonicalFilename flavor, PdfObj.ref (w0.objs.length + 1)) ∈
        res.sortedNames := hperm.mem_iff.mpr (dictGet_mem hget0)
    have honly2 : ∀ p ∈ res.sortedNames, p.1 ∈ ALL_FILENAMES →
        p = (canonicalFilename flavor, PdfObj.ref (w0.objs.length + 1)) := by
      intro p hp hf
      rcases hmemA p (hperm.mem_iff.mp hp) with hin | hin
      · simpa using hin
      · obtain ⟨q, hq, hqe⟩ := List.mem_map.mp hin
        exact absurd (hqe ▸ hf) (hatts q hq)
    have hproc : processPair (tblOf res.pdf.objs) pOk xOk true (canonicalFilename flavor)
        (PdfObj.ref (w0.objs.length + 1)) =
        Except.error "The XML syntax is invalid" := by
      rw [hobjs, processPair_primary, hparse]
      rfl
    exact extract_from_embed_error pOk xOk true (tblOf res.pdf.objs) res.pdf.root
      res.sortedNames (canonicalFilename flavor, PdfObj.ref (w0.objs.length + 1)) _
      hroot hmemS (canonicalFilename_mem flavor) honly2 hproc
  · intro orc w0 xmlBytes pdfMetadata flavor level orderxType lang outputIntents atts
      afrel pOk xOk res hatts hemb hparse hxsd
    obtain ⟨cdict, tail, w3x, hsn, hobjs, hroot, _haf, hmemA, hgetA, heq⟩ :=
      embed_inversion orc w0 xmlBytes pdfMetadata flavor level orderxType lang
        outputIntents atts afrel res hemb
    have hcanon : canonicalFilename flavor ∉ atts.map Prod.fst := by
      intro hc
      obtain ⟨p, hp, hpe⟩ := List.mem_map.mp hc
      exact hatts p hp (hpe ▸ canonicalFilename_mem flavor)
    have hget0 : dictGet cdict (canonicalFilename flavor) =
        some (PdfObj.ref (w0.objs.length + 1)) := by
      rw [hgetA _ hcanon]
      simp [dictGet]
    have hperm : res.sortedNames.Perm cdict := by
      rw [hsn]
      exact List.perm_insertionSort pairNameLe cdict
    have hmemS : (canonicalFilename flavor, PdfObj.ref (w0.objs.length + 1)) ∈
        res.sortedNames := hperm.mem_iff.mpr (dictGet_mem hget0)
    have honly2 : ∀ p ∈ res.sortedNames, p.1 ∈ ALL_FILENAMES →
        p = (canonicalFilename flavor, PdfObj.ref (w0.objs.length + 1)) := by
      intro p hp hf
      rcases hmemA p (hperm.mem_iff.mp hp) with hin | hin
      · simpa using hin
      · obtain ⟨q, hq, hqe⟩ := List.mem_map.mp hin
        exact absurd (hqe ▸ hf) (hatts q hq)
    have hproc : processPair (tblOf res.pdf.objs) pOk xOk true (canonicalFilename flavor)
        (PdfObj.ref (w0.objs.length + 1)) =
        Except.error "not valid against the official XML Schema Definition" := by
      rw [hobjs, processPair_primary, hparse, hxsd]
      rfl
    exact extract_from_embed_error pOk xOk true (tblOf res.pdf.objs) res.pdf.root
      res.sortedNames (canonicalFilename flavor, PdfObj.ref (w0.objs.length + 1)) _
      hroot hmemS (canonicalFilename_mem flavor) honly2 hproc
  · intro fn specDict pOk xOk hfn hef
    unfold getXmlFromPdf
    dsimp only
    have h1 : getDictEntry (fun n => if n = 0 then PdfObj.dict specDict else PdfObj.null)
        [("/Names", PdfObj.dict [("/EmbeddedFiles", PdfObj.dict
          [("/Names", PdfObj.array [PdfObj.string fn, PdfObj.ref 0])])])] "/Names" =
        some [("/EmbeddedFiles", PdfObj.dict
          [("/Names", PdfObj.array [PdfObj.string fn, PdfObj.ref 0])])] := rfl
    rw [h1]
    have h2 : getDictEntry (fun n => if n = 0 then PdfObj.dict specDict else PdfObj.null)
        [("/EmbeddedFiles", PdfObj.dict
          [("/Names", PdfObj.array [PdfObj.string fn, PdfObj.ref 0])])] "/EmbeddedFiles" =
        some [("/Names", PdfObj.array [PdfObj.string fn, PdfObj.ref 0])] := rfl
    simp only [List.isEmpty_nil, if_true, List.isEmpty_cons, h2]
    have h3 : getEmbeddedfiles (fun n => if n = 0 then PdfObj.dict specDict else PdfObj.null)
        [("/Names", PdfObj.array [PdfObj.string fn, PdfObj.ref 0])] =
        Except.ok (some [PdfObj.string fn, PdfObj.ref 0]) := by
      simp [getEmbeddedfiles, dictGet, getObj]
    rw [h3]
    dsimp only [byTwo]
    have h4 : scanPairs (fun n => if n = 0 then PdfObj.dict specDict else PdfObj.null)
        pOk xOk true ALL_FILENAMES [(PdfObj.string fn, PdfObj.ref 0)] =
        (processPair (fun n => if n = 0 then PdfObj.dict specDict else PdfObj.null)
          pOk xOk true fn (PdfObj.ref 0)).map some := by
      simp [scanPairs, hfn]
    rw [h4]
    have h5 : processPair (fun n => if n = 0 then PdfObj.dict specDict else PdfObj.null)
        pOk xOk true fn (PdfObj.ref 0) = Except.error "KeyError: /EF" := by
      unfold processPair
      dsimp only [getObj]
      rw [show (if (0 : Nat) = 0 then PdfObj.dict specDict else PdfObj.null) =
        PdfObj.dict specDict from if_pos rfl]
      dsimp only
      unfold dictItem
      rw [hef]
      rfl
    rw [h5]
    rfl

/-! ## C10: the afrelationship passed to the attachment assembler is valid -/

theorem normalizeAfrel_mem (x : Option String) :
    (normalizeAfrel x).1 ∈ XML_AFRelationship := by
  simp only [normalizeAfrel]
  by_cases h : XML_AFRelationship.contains
      (if truthyStr x = true then lowerStr (x.getD "") else "data") = true
  · rw [if_pos h]
    exact List.mem_of_elem_eq_true h
  · rw [if_neg h]
    decide

theorem resolveParams_ok_afrel (gF gL gT : Except String String)
    (flavorIn levelIn : String) (oIn aIn : Option String) (r : ResolvedParams)
    (h : resolveParams gF gL gT flavorIn levelIn oIn aIn = Except.ok r) :
    r.afrel = "data" ∨ r.afrel = (normalizeAfrel aIn).1 := by
  simp only [resolveParams] at h
  split at h
  · cases h
  split at h
  · cases h
  split at h
  · cases h
  rw [Except.ok.injEq] at h
  subst h
  dsimp only
  split
  · left
    rfl
  · right
    rfl

/-- C10. Every call entering through `generate_from_file` hands
`_facturx_update_metadata_add_attachment` an afrelationship drawn from
`XML_AFRelationship` — a falsy or unrecognized caller value was already
replaced by `data` during normalization, and the minimum/basicwl override
also yields `data` — so the assembler's `ValueError` branch for
afrelationship is unreachable from this public entry point. -/
theorem c10_afrelationship_guard_unreachable (gF gL gT : Except String String)
    (flavorIn levelIn : String) (oIn aIn : Option String) (r : ResolvedParams)
    (hres : resolveParams gF gL gT flavorIn levelIn oIn aIn = Except.ok r) :
    r.afrel ∈ XML_AFRelationship ∧
    (∀ (orc : Oracles) (w0 : WriterPdf) (xmlBytes : List Nat)
       (pdfMetadata : List (String × String)) (lang : Option String)
       (outputIntents : List (List (String × PdfObj) × PdfObj))
       (atts : List (String × AttachDict)),
      facturxUpdateMetadataAddAttachment orc w0 xmlBytes pdfMetadata r.flavor r.level
        r.orderxType lang outputIntents atts r.afrel ≠
        Except.error "ValueError: Wrong value for afrelationship") := by
  have hmem : r.afrel ∈ XML_AFRelationship := by
    rcases resolveParams_ok_afrel gF gL gT flavorIn levelIn oIn aIn r hres with h | h
    · rw [h]
      decide
    · rw [h]
      exact normalizeAfrel_mem aIn
  refine ⟨hmem, ?_⟩
  intro orc w0 xmlBytes pdfMetadata lang outputIntents atts hcontra
  simp only [facturxUpdateMetadataAddAttachment, addObject] at hcontra
  split at hcontra
  · rw [Except.error.injEq] at hcontra
    exact absurd hcontra (by decide)
  · have hcb : XML_AFRelationship.contains r.afrel = true :=
      List.elem_eq_true_of_mem hmem
    rw [hcb] at hcontra
    split at hcontra
    · rename_i hx
      exact absurd hx (by decide)
    · split at hcontra
      · rename_i e heq
        rw [Except.error.injEq] at hcontra
        have hmsg := addAttachments_error_msg orc atts _ _ e heq
        rw [hmsg] at hcontra
        exact absurd hcontra (by decide)
      · exact Except.noConfusion hcontra

/-! ## C6: the AFRelationship override for restricted Factur-X profiles -/

/-- `generate_from_file`'s parameter resolution when the caller asks for a
Factur-X document at a restricted profile (`minimum`/`basicwl`) with a
`source`/`alternative` afrelationship: the afrelationship is overridden to
`data` and a warning is appended. -/
theorem resolveParams_override (gF gL gT : Except String String)
    (flavorIn levelIn : String) (oIn aIn : Option String)
    (hflavor : fixFlavor flavorIn = "factur-x")
    (hlevel : normalizeLevel levelIn = "minimum" ∨ normalizeLevel levelIn = "basicwl")
    (hafrel : (normalizeAfrel aIn).1 = "source" ∨ (normalizeAfrel aIn).1 = "alternative") :
    resolveParams gF gL gT flavorIn levelIn oIn aIn = Except.ok
      { flavor := "factur-x", level := normalizeLevel levelIn,
        orderxType := normalizeOrderxType oIn, afrel := "data",
        warnings := (normalizeAfrel aIn).2 ++
          ["afrelationship switched to data: it must be data for this Factur-X profile"] } := by
  rcases hlevel with hl | hl <;> rcases hafrel with ha | ha <;>
    simp [resolveParams, hflavor, hl, ha, facturxLevels, FACTURX_LEVEL2xsd]

/-- C6. For an embed call with flavor `factur-x` and level `minimum` or
`basicwl`, a requested primary AFRelationship of `source` or `alternative`
is overridden to `data` with a warning (not an error), and the stored
`/AFRelationship` of the primary XML filespec object is the name `/Data`. -/
theorem c6_afrelationship_override (gF gL gT : Except String String)
    (flavorIn levelIn : String) (oIn aIn : Option String) (r : ResolvedParams)
    (hflavor : fixFlavor flavorIn = "factur-x")
    (hlevel : normalizeLevel levelIn = "minimum" ∨ normalizeLevel levelIn = "basicwl")
    (hafrel : (normalizeAfrel aIn).1 = "source" ∨ (normalizeAfrel aIn).1 = "alternative")
    (hres : resolveParams gF gL gT flavorIn levelIn oIn aIn = Except.ok r) :
    r.afrel = "data" ∧
    "afrelationship switched to data: it must be data for this Factur-X profile"
      ∈ r.warnings ∧
    (∀ (orc : Oracles) (w0 : WriterPdf) (xmlBytes : List Nat)
       (pdfMetadata : List (String × String)) (lang : Option String)
       (outputIntents : List (List (String × PdfObj) × PdfObj))
       (atts : List (String × AttachDict)) (res2 : EmbedOut),
      facturxUpdateMetadataAddAttachment orc w0 xmlBytes pdfMetadata r.flavor r.level
        r.orderxType lang outputIntents atts r.afrel = Except.ok res2 →
      ∃ kvs : List (String × PdfObj),
        tblOf res2.pdf.objs (w0.objs.length + 1) = PdfObj.dict kvs ∧
        dictGet kvs "/AFRelationship" = some (PdfObj.name "/Data")) := by
  rw [resolveParams_override gF gL gT flavorIn levelIn oIn aIn hflavor hlevel hafrel,
    Except.ok.injEq] at hres
  subst hres
  refine ⟨rfl, ?_, ?_⟩
  · exact List.mem_append_right _ (List.mem_singleton_self _)
  · intro orc w0 xmlBytes pdfMetadata lang outputIntents atts res2 hemb2
    obtain ⟨cdict, tail, w3x, hsn, hobjs, hroot, _haf, hmemA, hgetA, heq⟩ :=
      embed_inversion orc w0 xmlBytes pdfMetadata _ _ _ lang outputIntents atts _
        res2 hemb2
    have hpos : tblOf res2.pdf.objs (w0.objs.length + 1) =
        primaryFilespec (canonicalFilename "factur-x") (canonicalDesc "factur-x") "data"
          (PdfObj.ref w0.objs.length) := by
      rw [hobjs]
      unfold tblOf
      rw [getAt_append_len_succ]
      rfl
    refine ⟨_, hpos, ?_⟩
    rfl

/-! ## C8: the in-place transformation of the caller's attachments dict -/

theorem popReserved_eq (atts : List (String × AttachDict)) :
    popReserved atts =
      (atts.filter (fun p => !(ALL_FILENAMES.contains p.1)),
       (atts.filter (fun p => ALL_FILENAMES.contains p.1)).map Prod.fst) := by
  induction atts with
  | nil => rfl
  | cons hd rest ih =>
    cases hd with
    | mk fn a =>
      by_cases h : ALL_FILENAMES.contains fn = true
      · have hm : fn ∈ ALL_FILENAMES := List.mem_of_elem_eq_true h
        simp [popReserved, h, hm, ih, List.filter_cons]
      · have hm : fn ∉ ALL_FILENAMES := fun hx => h (List.elem_eq_true_of_mem hx)
        simp [popReserved, h, hm, ih, List.filter_cons]

theorem attachFilepathStep_afrel (readFile : String → List Nat) (mtime : String → Nat)
    (a : AttachDict) :
    (attachFilepathStep readFile mtime a).afrelationship = a.afrelationship := by
  unfold attachFilepathStep
  split
  · dsimp only
    split
    · rfl
    · rfl
  · rfl

theorem attachFilepathStep_filedata (readFile : String → List Nat) (mtime : String → Nat)
    (a : AttachDict) :
    (attachFilepathStep readFile mtime a).filedata =
      (if truthyStr a.filepath && !(truthyBytes a.filedata) then
        some (readFile (a.filepath.getD "")) else a.filedata) := by
  unfold attachFilepathStep
  split
  · dsimp only
    split
    · rfl
    · rfl
  · rfl

theorem attachFilepathStep_mod (readFile : String → List Nat) (mtime : String → Nat)
    (a : AttachDict) :
    (attachFilepathStep readFile mtime a).modification_datetime =
      (if truthyStr a.filepath && !(truthyBytes a.filedata) &&
          !(a.modification_datetime.isSome) then
        some (mtime (a.filepath.getD "")) else a.modification_datetime) := by
  unfold attachFilepathStep
  by_cases h1 : (truthyStr a.filepath && !(truthyBytes a.filedata)) = true
  · rw [if_pos h1]
    dsimp only
    by_cases h2 : a.modification_datetime.isSome = true
    · rw [if_pos h2]
      simp [h1, h2]
    · rw [if_neg h2]
      simp only [Bool.not_eq_true] at h2
      simp [h1, h2]
  · rw [if_neg h1]
    simp only [Bool.not_eq_true] at h1
    simp [h1]

theorem attachAfrelStep_filedata (a : AttachDict) :
    (attachAfrelStep a).filedata = a.filedata := by
  simp only [attachAfrelStep]
  by_cases h : truthyStr a.afrelationship = true
  · rw [if_pos h]
    split <;> rfl
  · rw [if_neg h]
    split <;> rfl

theorem attachAfrelStep_mod (a : AttachDict) :
    (attachAfrelStep a).modification_datetime = a.modification_datetime := by
  simp only [attachAfrelStep]
  by_cases h : truthyStr a.afrelationship = true
  · rw [if_pos h]
    split <;> rfl
  · rw [if_neg h]
    split <;> rfl

theorem truthyStr_false_eq_empty (s : String) (h : truthyStr (some s) = false) :
    s = "" := by
  unfold truthyStr at h
  cases s with
  | mk data =>
    simp only [Bool.not_eq_false'] at h
    rw [List.isEmpty_iff] at h
    rw [h]

theorem attachAfrelStep_afrel (a : AttachDict) :
    (attachAfrelStep a).afrelationship =
      (if truthyStr a.afrelationship &&
          ATTACHMENTS_AFRelationship.contains (lowerStr (a.afrelationship.getD "")) then
        some (lowerStr (a.afrelationship.getD "")) else some "unspecified") := by
  simp only [attachAfrelStep]
  by_cases h1 : truthyStr a.afrelationship = true
  · rw [if_pos h1]
    dsimp only
    by_cases h2 : ATTACHMENTS_AFRelationship.contains
        (lowerStr (a.afrelationship.getD "")) = true
    · rw [if_pos h2]
      have hm2 : lowerStr (a.afrelationship.getD "") ∈ ATTACHMENTS_AFRelationship :=
        List.mem_of_elem_eq_true h2
      simp [h1, h2, hm2]
    · have hm2 : lowerStr (a.afrelationship.getD "") ∉ ATTACHMENTS_AFRelationship :=
        fun hx => h2 (List.elem_eq_true_of_mem hx)
      rw [if_neg h2]
      simp [h1, hm2]
  · rw [if_neg h1]
    simp only [Bool.not_eq_true] at h1
    rw [h1]
    simp only [Bool.false_and, Bool.false_eq_true, if_false]
    cases haf : a.afrelationship with
    | none => simp [haf]
    | some s =>
      have hs : s = "" := truthyStr_false_eq_empty s (haf ▸ h1)
      subst hs
      simp [haf]
      rw [if_neg (by decide : ¬("" ∈ ATTACHMENTS_AFRelationship))]

/-- C8 counterexample: the afrelationship normalization of lines 1166-1170 is
nested inside the `if fadict.get('filepath') and not fadict.get('filedata')`
branch, so a filedata-supplied attachment keeps an invalid `afrelationship`
verbatim (first conjunct), where the claimed unconditional rewrite would have
produced its lower-casing `supplement` (second conjunct), and an attachment
dict with neither `filepath` nor `filedata` is left entirely unchanged
(third conjunct), where the claimed rewrite would have set `unspecified`. -/
theorem c8_counterexample :
    (transformAttachValue (fun _ => [5]) (fun _ => 0)
        { filedata := some [7], afrelationship := some "SUPPLEMENT" }).afrelationship =
      some "SUPPLEMENT" ∧
    some "SUPPLEMENT" ≠
      (if truthyStr (some "SUPPLEMENT") &&
          ATTACHMENTS_AFRelationship.contains (lowerStr "SUPPLEMENT") then
        some (lowerStr "SUPPLEMENT") else (some "unspecified" : Option String)) ∧
    generateAttachmentsTransform (fun _ => [5]) (fun _ => 0) [("a.txt", {})] =
      ([("a.txt", {})], []) := by
  refine ⟨rfl, ?_, rfl⟩
  decide

/-- C8 (amended). `generate_from_file` transforms the caller's `attachments`
dict in place: entries with reserved filenames are removed (first conjunct);
a surviving entry gains `filedata` read from `filepath` when absent (second)
and may gain a `modification_datetime` (third); the `afrelationship`
normalization — lower-casing when truthy, fallback `unspecified` when not a
valid attachment relationship — runs only inside that same
filepath-and-no-filedata branch (fourth); and an entry whose `filedata` is
already supplied, or that names no file, is left entirely unchanged
(fifth). -/
theorem c8_attachments_inplace_transform (readFile : String → List Nat)
    (mtime : String → Nat) :
    (∀ atts : List (String × AttachDict),
      generateAttachmentsTransform readFile mtime atts =
        ((atts.filter (fun p => !(ALL_FILENAMES.contains p.1))).map
           (fun kv => (kv.1, transformAttachValue readFile mtime kv.2)),
         (atts.filter (fun p => ALL_FILENAMES.contains p.1)).map Prod.fst)) ∧
    (∀ a : AttachDict, (transformAttachValue readFile mtime a).filedata =
      (if truthyStr a.filepath && !(truthyBytes a.filedata) then
        some (readFile (a.filepath.getD "")) else a.filedata)) ∧
    (∀ a : AttachDict, (transformAttachValue readFile mtime a).modification_datetime =
      (if truthyStr a.filepath && !(truthyBytes a.filedata) &&
          !(a.modification_datetime.isSome) then
        some (mtime (a.filepath.getD "")) else a.modification_datetime)) ∧
    (∀ a : AttachDict, (transformAttachValue readFile mtime a).afrelationship =
      (if truthyStr a.filepath && !(truthyBytes a.filedata) then
        (if truthyStr a.afrelationship &&
            ATTACHMENTS_AFRelationship.contains (lowerStr (a.afrelationship.getD "")) then
          some (lowerStr (a.afrelationship.getD "")) else some "unspecified")
       else a.afrelationship)) ∧
    (∀ a : AttachDict, (truthyStr a.filepath && !(truthyBytes a.filedata)) = false →
      transformAttachValue readFile mtime a = a) := by
  refine ⟨?_, ?_, ?_, ?_, ?_⟩
  · intro atts
    unfold generateAttachmentsTransform
    rw [popReserved_eq]
  · intro a
    unfold transformAttachValue
    by_cases hg : (truthyStr a.filepath && !(truthyBytes a.filedata)) = true
    · rw [if_pos hg, attachAfrelStep_filedata, attachFilepathStep_filedata]
    · rw [if_neg hg, if_neg hg]
  · intro a
    unfold transformAttachValue
    by_cases hg : (truthyStr a.filepath && !(truthyBytes a.filedata)) = true
    · rw [if_pos hg, attachAfrelStep_mod, attachFilepathStep_mod]
    · rw [if_neg hg]
      have hg2 : (truthyStr a.filepath && !(truthyBytes a.filedata)) = false :=
        Bool.not_eq_true _ ▸ eq_false_of_ne_true hg
      rw [if_neg (by rw [hg2, Bool.false_and]; exact Bool.false_ne_true)]
  · intro a
    unfold transformAttachValue
    by_cases hg : (truthyStr a.filepath && !(truthyBytes a.filedata)) = true
    · rw [if_pos hg, if_pos hg, attachAfrelStep_afrel, attachFilepathStep_afrel]
    · rw [if_neg hg, if_neg hg]
  · intro a hg
    unfold transformAttachValue
    rw [if_neg (by rw [hg]; exact Bool.false_ne_true)]

/-! ## C7: reserved canonical filenames -/

theorem addAttachments_ok_filedata (orc : Oracles) :
    ∀ (atts : List (String × AttachDict)) (w : WriterPdf)
      (cd : List (String × PdfObj)) (w2 : WriterPdf) (cd2 : List (String × PdfObj)),
    addAttachments orc w cd atts = Except.ok (w2, cd2) →
    ∀ p ∈ atts, p.2.filedata.isSome := by
  intro atts
  induction atts with
  | nil =>
    intro w cd w2 cd2 _ p hp
    simp at hp
  | cons hd rest ih =>
    intro w cd w2 cd2 h p hp
    cases hd with
    | mk fn a =>
      simp only [addAttachments, filespecAdditionalAttachments] at h
      cases hfd : a.filedata with
      | none =>
        rw [hfd] at h
        simp at h
      | some data =>
        rw [hfd] at h
        simp only [addObject] at h
        rcases List.mem_cons.mp hp with he | hm
        · subst he
          simp [hfd]
        · exact ih _ _ _ _ h p hm

/-- C7. Reserved canonical filenames: in `generate_from_file` any
caller-supplied supplementary attachment named `factur-x.xml`,
`zugferd-invoice.xml`, `ZUGFeRD-invoice.xml` or `order-x.xml` is dropped with
one warning per dropped entry (first conjunct) and only the others are
forwarded to the embed step (second); on a successful embed the output Names
entries are, up to the sort, exactly the canonical filename plus the kept
names (third); a reserved name can therefore only occur in the output as the
canonical primary filename (fourth), while every non-reserved supplied
attachment does appear (fifth). -/
theorem c7_reserved_filenames (readFile : String → List Nat) (mtime : String → Nat)
    (orc : Oracles) (w0 : WriterPdf) (xmlBytes : List Nat)
    (pdfMetadata : List (String × String)) (flavor level : String)
    (orderxType lang : Option String)
    (outputIntents : List (List (String × PdfObj) × PdfObj)) (afrel : String)
    (atts : List (String × AttachDict)) (res : EmbedOut)
    (hnd : (atts.map Prod.fst).Nodup)
    (hemb : facturxUpdateMetadataAddAttachment orc w0 xmlBytes pdfMetadata flavor
      level orderxType lang outputIntents
      (generateAttachmentsTransform readFile mtime atts).1 afrel = Except.ok res) :
    (generateAttachmentsTransform readFile mtime atts).2 =
      (atts.filter (fun p => ALL_FILENAMES.contains p.1)).map Prod.fst ∧
    (generateAttachmentsTransform readFile mtime atts).1.map Prod.fst =
      (atts.filter (fun p => !(ALL_FILENAMES.contains p.1))).map Prod.fst ∧
    (res.sortedNames.map Prod.fst).Perm
      (canonicalFilename flavor ::
        (atts.filter (fun p => !(ALL_FILENAMES.contains p.1))).map Prod.fst) ∧
    (∀ n ∈ ALL_FILENAMES, n ∈ res.sortedNames.map Prod.fst →
      n = canonicalFilename flavor) ∧
    (∀ p ∈ atts, p.1 ∉ ALL_FILENAMES → p.1 ∈ res.sortedNames.map Prod.fst) := by
  have hgen1 : (generateAttachmentsTransform readFile mtime atts).1 =
      (atts.filter (fun p => !(ALL_FILENAMES.contains p.1))).map
        (fun kv => (kv.1, transformAttachValue readFile mtime kv.2)) := by
    unfold generateAttachmentsTransform
    rw [popReserved_eq]
  have hgen2 : (generateAttachmentsTransform readFile mtime atts).2 =
      (atts.filter (fun p => ALL_FILENAMES.contains p.1)).map Prod.fst := by
    unfold generateAttachmentsTransform
    rw [popReserved_eq]
  have hnames : (generateAttachmentsTransform readFile mtime atts).1.map Prod.fst =
      (atts.filter (fun p => !(ALL_FILENAMES.contains p.1))).map Prod.fst := by
    rw [hgen1, List.map_map]
    rfl
  obtain ⟨cdict, tail, w3, hsn, hobjs, hroot, _haf, hmemA, hgetA, heq⟩ :=
    embed_inversion orc w0 xmlBytes pdfMetadata flavor level orderxType lang
      outputIntents _ afrel res hemb
  have hdata := addAttachments_ok_filedata orc _ _ _ _ _ heq
  have hkeptnotall : ∀ p ∈ (generateAttachmentsTransform readFile mtime atts).1,
      p.1 ∉ ALL_FILENAMES := by
    intro p hp hmem
    rw [hgen1] at hp
    obtain ⟨q, hq, hqe⟩ := List.mem_map.mp hp
    have hqf := List.of_mem_filter hq
    simp only [Bool.not_eq_true'] at hqf
    have hq1 : q.1 ∈ ALL_FILENAMES := by
      have hfst : p.1 = q.1 := by rw [← hqe]
      rwa [hfst] at hmem
    have h2 : ALL_FILENAMES.contains q.1 = true := List.elem_eq_true_of_mem hq1
    rw [hqf] at h2
    exact Bool.false_ne_true h2
  have hfresh : ∀ p ∈ (generateAttachmentsTransform readFile mtime atts).1,
      dictGet [(canonicalFilename flavor, PdfObj.ref (w0.objs.length + 1))] p.1 =
        none := by
    intro p hp
    have hne : ¬(canonicalFilename flavor == p.1) = true := by
      intro hb
      have : canonicalFilename flavor = p.1 := by
        simpa using hb
      exact hkeptnotall p hp (this ▸ canonicalFilename_mem flavor)
    simp only [dictGet, if_neg hne]
  have hndk : ((generateAttachmentsTransform readFile mtime atts).1.map Prod.fst).Nodup := by
    rw [hnames]
    exact hnd.sublist (List.Sublist.map Prod.fst (List.filter_sublist atts))
  have hnorm := addAttachments_normal orc
    (generateAttachmentsTransform readFile mtime atts).1
    { objs := w0.objs ++ [primaryFileEntry orc xmlBytes] ++
        [primaryFilespec (canonicalFilename flavor) (canonicalDesc flavor) afrel
          (PdfObj.ref w0.objs.length)],
      root := w0.root, info := w0.info }
    [(canonicalFilename flavor, PdfObj.ref (w0.objs.length + 1))]
    hdata hfresh hndk
  rw [hnorm] at heq
  simp only [Except.ok.injEq, Prod.mk.injEq] at heq
  have hcd : cdict = [(canonicalFilename flavor, PdfObj.ref (w0.objs.length + 1))] ++
      attachEntriesFrom
        (w0.objs ++ [primaryFileEntry orc xmlBytes] ++
          [primaryFilespec (canonicalFilename flavor) (canonicalDesc flavor) afrel
            (PdfObj.ref w0.objs.length)]).length
        (generateAttachmentsTransform readFile mtime atts).1 := heq.2.symm
  have hcdnames : cdict.map Prod.fst = canonicalFilename flavor ::
      (atts.filter (fun p => !(ALL_FILENAMES.contains p.1))).map Prod.fst := by
    rw [hcd]
    simp only [List.map_append, List.map_cons, List.map_nil]
    rw [attachEntriesFrom_names, hnames]
    rfl
  have hperm : (res.sortedNames.map Prod.fst).Perm (cdict.map Prod.fst) := by
    rw [hsn]
    exact (List.perm_insertionSort pairNameLe cdict).map Prod.fst
  rw [hcdnames] at hperm
  refine ⟨hgen2, hnames, hperm, ?_, ?_⟩
  · intro n hnall hnin
    have := hperm.mem_iff.mp hnin
    rcases List.mem_cons.mp this with he | hm
    · exact he
    · obtain ⟨q, hq, hqe⟩ := List.mem_map.mp hm
      have hqf := List.of_mem_filter hq
      simp only [Bool.not_eq_true'] at hqf
      have h2 : ALL_FILENAMES.contains q.1 = true := by
        rw [hqe]
        exact List.elem_eq_true_of_mem hnall
      rw [hqf] at h2
      exact absurd h2 Bool.false_ne_true
  · intro p hp hpn
    apply hperm.mem_iff.mpr
    apply List.mem_cons_of_mem
    apply List.mem_map_of_mem Prod.fst
    apply List.mem_filter.mpr
    refine ⟨hp, ?_⟩
    simp only [Bool.not_eq_true']
    cases hc : ALL_FILENAMES.contains p.1 with
    | false => rfl
    | true => exact absurd (List.mem_of_elem_eq_true hc) hpn

/-! ## C3: deterministic ordering of the Names/AF arrays -/

/-- Under distinct supplementary names avoiding the canonical filename, a
successful embed sorts exactly the canonical entry plus one entry per
supplementary attachment (in input order before sorting). -/
theorem embed_cdict_names (orc : Oracles) (w0 : WriterPdf) (xmlBytes : List Nat)
    (pdfMetadata : List (String × String)) (flavor level : String)
    (orderxType lang : Option String)
    (outputIntents : List (List (String × PdfObj) × PdfObj)) (afrel : String)
    (atts : List (String × AttachDict)) (res : EmbedOut)
    (hnd : (atts.map Prod.fst).Nodup)
    (hcanon : canonicalFilename flavor ∉ atts.map Prod.fst)
    (hemb : facturxUpdateMetadataAddAttachment orc w0 xmlBytes pdfMetadata flavor
      level orderxType lang outputIntents atts afrel = Except.ok res) :
    res.sortedNames = List.insertionSort pairNameLe
      ((canonicalFilename flavor, PdfObj.ref (w0.objs.length + 1)) ::
        attachEntriesFrom (w0.objs.length + 2) atts) ∧
    res.afList = res.sortedNames.map Prod.snd := by
  obtain ⟨cdict, tail, w3, hsn, hobjs, hroot, haf, hmemA, hgetA, heq⟩ :=
    embed_inversion orc w0 xmlBytes pdfMetadata flavor level orderxType lang
      outputIntents atts afrel res hemb
  have hdata := addAttachments_ok_filedata orc _ _ _ _ _ heq
  have hfresh : ∀ p ∈ atts,
      dictGet [(canonicalFilename flavor, PdfObj.ref (w0.objs.length + 1))] p.1 =
        none := by
    intro p hp
    have hne : ¬(canonicalFilename flavor == p.1) = true := by
      intro hb
      have he : canonicalFilename flavor = p.1 := by
        simpa using hb
      exact hcanon (he ▸ (he.symm ▸ List.mem_map_of_mem Prod.fst hp))
    simp only [dictGet, if_neg hne]
  have hnorm := addAttachments_normal orc atts
    { objs := w0.objs ++ [primaryFileEntry orc xmlBytes] ++
        [primaryFilespec (canonicalFilename flavor) (canonicalDesc flavor) afrel
          (PdfObj.ref w0.objs.length)],
      root := w0.root, info := w0.info }
    [(canonicalFilename flavor, PdfObj.ref (w0.objs.length + 1))]
    hdata hfresh hnd
  rw [hnorm] at heq
  simp only [Except.ok.injEq, Prod.mk.injEq] at heq
  have hlen : (w0.objs ++ [primaryFileEntry orc xmlBytes] ++
      [primaryFilespec (canonicalFilename flavor) (canonicalDesc flavor) afrel
        (PdfObj.ref w0.objs.length)]).length = w0.objs.length + 2 := by
    simp
  have hcd : cdict = (canonicalFilename flavor, PdfObj.ref (w0.objs.length + 1)) ::
      attachEntriesFrom (w0.objs.length + 2) atts := by
    rw [← hlen]
    exact heq.2.symm
  constructor
  · rw [hsn, hcd]
  · exact haf

/-- C3. Deterministic ordering: a successful embed emits a Names array sorted
by the encoded filename (first conjunct, with `pairNameLe` comparing the
filename strings code-point-wise), the AF array lists the filespec references
in exactly the Names order in both runs (second and third conjuncts), and two
runs over the same attachments supplied in different insertion orders produce
the identical filename sequence (fourth conjunct; the filespec references
themselves are per-run indirect object numbers). -/
theorem c3_deterministic_ordering (orc : Oracles) (w0 : WriterPdf)
    (xmlBytes : List Nat) (pdfMetadata : List (String × String))
    (flavor level : String) (orderxType lang : Option String)
    (outputIntents : List (List (String × PdfObj) × PdfObj)) (afrel : String)
    (atts1 atts2 : List (String × AttachDict)) (res1 res2 : EmbedOut)
    (hperm : atts1.Perm atts2)
    (hnd : (atts1.map Prod.fst).Nodup)
    (hcanon : canonicalFilename flavor ∉ atts1.map Prod.fst)
    (hemb1 : facturxUpdateMetadataAddAttachment orc w0 xmlBytes pdfMetadata flavor
      level orderxType lang outputIntents atts1 afrel = Except.ok res1)
    (hemb2 : facturxUpdateMetadataAddAttachment orc w0 xmlBytes pdfMetadata flavor
      level orderxType lang outputIntents atts2 afrel = Except.ok res2) :
    List.Pairwise pairNameLe res1.sortedNames ∧
    res1.afList = res1.sortedNames.map Prod.snd ∧
    res2.afList = res2.sortedNames.map Prod.snd ∧
    res1.sortedNames.map Prod.fst = res2.sortedNames.map Prod.fst := by
  have hnd2 : (atts2.map Prod.fst).Nodup := ((hperm.map Prod.fst).nodup_iff).mp hnd
  have hcanon2 : canonicalFilename flavor ∉ atts2.map Prod.fst := by
    intro hx
    exact hcanon (((hperm.map Prod.fst).mem_iff).mpr hx)
  obtain ⟨hsn1, haf1⟩ := embed_cdict_names orc w0 xmlBytes pdfMetadata flavor level
    orderxType lang outputIntents afrel atts1 res1 hnd hcanon hemb1
  obtain ⟨hsn2, haf2⟩ := embed_cdict_names orc w0 xmlBytes pdfMetadata flavor level
    orderxType lang outputIntents afrel atts2 res2 hnd2 hcanon2 hemb2
  have hsort1 : List.Pairwise pairNameLe res1.sortedNames := by
    rw [hsn1]
    exact List.sorted_insertionSort pairNameLe _
  have hsort2 : List.Pairwise pairNameLe res2.sortedNames := by
    rw [hsn2]
    exact List.sorted_insertionSort pairNameLe _
  refine ⟨hsort1, haf1, haf2, ?_⟩
  haveI : IsAntisymm String (fun a b => strLeB a b = true) := ⟨strLeB_antisymm⟩
  have hps1 : List.Pairwise (fun a b : String => strLeB a b = true)
      (res1.sortedNames.map Prod.fst) :=
    List.Pairwise.map Prod.fst (fun _ _ h => h) hsort1
  have hps2 : List.Pairwise (fun a b : String => strLeB a b = true)
      (res2.sortedNames.map Prod.fst) :=
    List.Pairwise.map Prod.fst (fun _ _ h => h) hsort2
  have hp : (res1.sortedNames.map Prod.fst).Perm (res2.sortedNames.map Prod.fst) := by
    have h1 : (res1.sortedNames.map Prod.fst).Perm
        (canonicalFilename flavor :: atts1.map Prod.fst) := by
      rw [hsn1]
      have := (List.perm_insertionSort pairNameLe
        ((canonicalFilename flavor, PdfObj.ref (w0.objs.length + 1)) ::
          attachEntriesFrom (w0.objs.length + 2) atts1)).map Prod.fst
      simpa [attachEntriesFrom_names] using this
    have h2 : (res2.sortedNames.map Prod.fst).Perm
        (canonicalFilename flavor :: atts2.map Prod.fst) := by
      rw [hsn2]
      have := (List.perm_insertionSort pairNameLe
        ((canonicalFilename flavor, PdfObj.ref (w0.objs.length + 1)) ::
          attachEntriesFrom (w0.objs.length + 2) atts2)).map Prod.fst
      simpa [attachEntriesFrom_names] using this
    exact h1.trans (((hperm.map Prod.fst).cons (canonicalFilename flavor)).trans h2.symm)
  exact List.eq_of_perm_of_sorted hp hps1 hps2

/-! ## Concrete witnesses: a small writer state, oracle set and attachments -/

def witOrc : Oracles :=
  { md5hex := fun _ => "deadbeef", guessMime := fun _ => some "text/plain",
    nowPdf := "now", fmtPdf := fun _ => "D", xmpBytes := fun _ _ _ _ => [1],
    libVersion := "3.1" }

def witW0 : WriterPdf := { objs := [PdfObj.null, PdfObj.null], root := [], info := [] }

def witAtts : List (String × AttachDict) :=
  [("b.txt", { filedata := some [9, 9] }), ("a.txt", { filedata := some [7] })]

def witAtts2 : List (String × AttachDict) :=
  [("a.txt", { filedata := some [7] }), ("b.txt", { filedata := some [9, 9] })]

def witEmbed (atts : List (String × AttachDict)) : EmbedOut :=
  match facturxUpdateMetadataAddAttachment witOrc witW0 [60, 65] [] "factur-x"
      "en16931" none (some "en_US") [] atts "data" with
  | Except.ok r => r
  | Except.error _ => { pdf := witW0, sortedNames := [], afList := [] }

/-- Witness for C1's hypotheses at a concrete embed run. -/
theorem c1_round_trip_witness :
    getXmlFromPdf (fun _ => true) (fun _ _ => true) true []
      (some (pdfOfWriter (witEmbed witAtts).pdf)) =
      ExtractResult.found (canonicalFilename "factur-x") [60, 65] :=
  c1_round_trip witOrc witW0 [60, 65] [] "factur-x" "en16931" none (some "en_US") []
    witAtts "data" (fun _ => true) (fun _ _ => true) true (witEmbed witAtts)
    (by decide) rfl (fun _ => rfl) rfl

/-- Witness for C3's hypotheses: the same two attachments in swapped insertion
orders give identically ordered Names arrays, each aligned with its AF array. -/
theorem c3_deterministic_ordering_witness :
    List.Pairwise pairNameLe (witEmbed witAtts).sortedNames ∧
    (witEmbed witAtts).afList = (witEmbed witAtts).sortedNames.map Prod.snd ∧
    (witEmbed witAtts2).afList = (witEmbed witAtts2).sortedNames.map Prod.snd ∧
    (witEmbed witAtts).sortedNames.map Prod.fst =
      (witEmbed witAtts2).sortedNames.map Prod.fst :=
  c3_deterministic_ordering witOrc witW0 [60, 65] [] "factur-x" "en16931" none
    (some "en_US") [] "data" witAtts witAtts2 (witEmbed witAtts) (witEmbed witAtts2)
    (List.Perm.swap _ _ _) (by decide) (by decide) rfl rfl

def witResolved : ResolvedParams :=
  match resolveParams (Except.ok "factur-x") (Except.ok "minimum") (Except.error "e")
      "Factur-X" "MINIMUM" none (some "Source") with
  | Except.ok r => r
  | Except.error _ =>
    { flavor := "", level := "", orderxType := none, afrel := "", warnings := [] }

def witEmbed6 : EmbedOut :=
  match facturxUpdateMetadataAddAttachment witOrc witW0 [60, 65] [] witResolved.flavor
      witResolved.level witResolved.orderxType (some "en_US") [] [] witResolved.afrel with
  | Except.ok r => r
  | Except.error _ => { pdf := witW0, sortedNames := [], afList := [] }

/-- Witness for C6's hypotheses: requesting `Source` at Factur-X `MINIMUM`
resolves to afrelationship `data` with the warning, and the stored primary
filespec carries `/AFRelationship /Data`. -/
theorem c6_afrelationship_override_witness :
    witResolved.afrel = "data" ∧
    "afrelationship switched to data: it must be data for this Factur-X profile"
      ∈ witResolved.warnings ∧
    (∃ kvs : List (String × PdfObj),
      tblOf witEmbed6.pdf.objs (witW0.objs.length + 1) = PdfObj.dict kvs ∧
      dictGet kvs "/AFRelationship" = some (PdfObj.name "/Data")) := by
  have h := c6_afrelationship_override (Except.ok "factur-x") (Except.ok "minimum")
    (Except.error "e") "Factur-X" "MINIMUM" none (some "Source") witResolved
    rfl (Or.inl rfl) (Or.inl rfl) rfl
  exact ⟨h.1, h.2.1, h.2.2 witOrc witW0 [60, 65] [] (some "en_US") [] [] witEmbed6 rfl⟩

def witAttsC7 : List (String × AttachDict) :=
  [("order-x.xml", { filedata := some [1] }), ("a.txt", { filedata := some [7] })]

def witEmbedC7 : EmbedOut :=
  match facturxUpdateMetadataAddAttachment witOrc witW0 [60, 65] [] "factur-x"
      "en16931" none (some "en_US") []
      (generateAttachmentsTransform (fun _ => [5]) (fun _ => 0) witAttsC7).1 "data" with
  | Except.ok r => r
  | Except.error _ => { pdf := witW0, sortedNames := [], afList := [] }

/-- Witness for C7's hypotheses: of a reserved `order-x.xml` and a plain
`a.txt` attachment, the reserved one is dropped with a warning and only
`a.txt` joins the canonical filename in the output Names entries. -/
theorem c7_reserved_filenames_witness :
    (generateAttachmentsTransform (fun _ => [5]) (fun _ => 0) witAttsC7).2 =
      (witAttsC7.filter (fun p => ALL_FILENAMES.contains p.1)).map Prod.fst ∧
    (generateAttachmentsTransform (fun _ => [5]) (fun _ => 0) witAttsC7).1.map Prod.fst =
      (witAttsC7.filter (fun p => !(ALL_FILENAMES.contains p.1))).map Prod.fst ∧
    (witEmbedC7.sortedNames.map Prod.fst).Perm
      (canonicalFilename "factur-x" ::
        (witAttsC7.filter (fun p => !(ALL_FILENAMES.contains p.1))).map Prod.fst) ∧
    (∀ n ∈ ALL_FILENAMES, n ∈ witEmbedC7.sortedNames.map Prod.fst →
      n = canonicalFilename "factur-x") ∧
    (∀ p ∈ witAttsC7, p.1 ∉ ALL_FILENAMES →
      p.1 ∈ witEmbedC7.sortedNames.map Prod.fst) :=
  c7_reserved_filenames (fun _ => [5]) (fun _ => 0) witOrc witW0 [60, 65] []
    "factur-x" "en16931" none (some "en_US") [] "data" witAttsC7 witEmbedC7
    (by decide) rfl

def witResolved10 : ResolvedParams :=
  match resolveParams (Except.ok "factur-x") (Except.ok "en16931") (Except.error "e")
      "facturx" "EN 16931" none none with
  | Except.ok r => r
  | Except.error _ =>
    { flavor := "", level := "", orderxType := none, afrel := "", warnings := [] }

/-- Witness for C10's hypothesis: a `generate_from_file`-style resolution with
no caller afrelationship yields a member of `XML_AFRelationship`, and no
embed call with that resolved value can hit the afrelationship `ValueError`. -/
theorem c10_afrelationship_guard_unreachable_witness :
    witResolved10.afrel ∈ XML_AFRelationship ∧
    (∀ (orc : Oracles) (w0 : WriterPdf) (xmlBytes : List Nat)
       (pdfMetadata : List (String × String)) (lang : Option String)
       (outputIntents : List (List (String × PdfObj) × PdfObj))
       (atts : List (String × AttachDict)),
      facturxUpdateMetadataAddAttachment orc w0 xmlBytes pdfMetadata
        witResolved10.flavor witResolved10.level witResolved10.orderxType lang
        outputIntents atts witResolved10.afrel ≠
        Except.error "ValueError: Wrong value for afrelationship") :=
  c10_afrelationship_guard_unreachable (Except.ok "factur-x") (Except.ok "en16931")
    (Except.error "e") "facturx" "EN 16931" none none witResolved10 rfl
